import Mathlib

/-!
melange-app/plugin-news: address directory, protocol client and mail synchronisation

A shallow embedding of `mailserver/router.go`, `server/dap/client.go`,
`mailserver/framework.go`, `server/mailserver/mailserver/mailserver.go` and
`server/dispatcher/dap_handler.go`, followed by the properties established about them.

Conventions of the embedding:

* a Go `string` is a `String`, inspected through its list of characters;
* a Go `[]byte` is a `List Nat` (every element taken modulo 256 where its value matters);
* a Go slice is a `List`, the nil slice is `[]`; a slice of pointers is a list of
  `Option`s, `none` being the nil pointer;
* a Go `error` result is an `Option Err`, `none` being the nil error;
* a library function with a Go result `(T, error)` is an `Except Err T`, since the code
  reads the value only when the error is nil; the methods whose result pair is itself
  the subject of a property return the pair;
* operations of the libraries the code calls (`airdispat.ch/...`, the database, the
  network) are fields of an environment record;
* a `uint64` is a `Nat`; the one conversion from `int64` is `uint64`;
* a call that can panic ends in an `Outcome`: it returns its results or it panics.
-/

namespace Melange

/-- The structured error `*adErrors.Error` a remote server sends back. -/
structure AdError where
  Code : Nat
  Description : String
  deriving DecidableEq, Repr

/-- A Go error value: one made by `errors.New` (or by a library), identified by its
message, or a structured remote error. -/
inductive Err where
  | text (msg : String)
  | remote (e : AdError)
  deriving DecidableEq, Repr

/-! ## Go standard library: `strings` -/

namespace strings

/-- Go `strings.Index(s, sep)`: position of the first occurrence of `sep` in `s`;
`none` stands for `-1`. -/
def Index : List Char → List Char → Option Nat
  | [], sep => if sep = [] then some 0 else none
  | c :: s, sep =>
    if sep.isPrefixOf (c :: s) then some 0
    else (Index s sep).map (· + 1)

/-- The counting loop of `strings.Count` for a non-empty separator: occurrences are
counted without overlap, each one found restarting the search behind it. The first
argument bounds the number of iterations (an occurrence consumes at least one
character, so `len(s)` iterations are enough). -/
def countLoop (sep : List Char) : Nat → List Char → Nat
  | 0, _ => 0
  | fuel + 1, s =>
    match Index s sep with
    | none => 0
    | some m => 1 + countLoop sep fuel (s.drop (m + sep.length))

/-- Go `strings.Count(s, sep)`: for the empty separator, the number of characters
plus one. -/
def Count (s sep : List Char) : Nat :=
  if sep = [] then s.length + 1 else countLoop sep s.length s

/-- Go `explode(s, -1)`: one string per character. -/
def explode (s : List Char) : List (List Char) :=
  s.map (fun c => [c])

/-- The loop of `genSplit(s, sep, 0, n)`: at most `n` cuts, the rest of the string
is the last element. -/
def splitLoop (sep : List Char) : Nat → List Char → List (List Char)
  | 0, s => [s]
  | n + 1, s =>
    match Index s sep with
    | none => [s]
    | some m => s.take m :: splitLoop sep n (s.drop (m + sep.length))

/-- Go `strings.Split(s, sep)` = `genSplit(s, sep, 0, -1)`: the empty separator
explodes the string; otherwise `n = Count(s, sep) + 1` pieces are cut. -/
def Split (s sep : String) : List String :=
  if sep.data = [] then (explode s.data).map String.mk
  else (splitLoop sep.data (Count s.data sep.data) s.data).map String.mk

end strings

/-! ## `mailserver/router.go` -/

/-- The part of `identity.Address` the code reads: its textual form (`String()`),
its network location and its encryption key. -/
structure Address where
  Fingerprint : String
  Location : String
  EncryptionKey : List Nat
  deriving DecidableEq, Repr

/-- The method `Address.String()`. -/
def Address.String (a : Address) : String := a.Fingerprint

/-- The type `identity.Identity`: a key pair with its address. -/
structure Identity where
  Address : Address
  deriving DecidableEq, Repr

/-- The tracker library (`airdispat.ch/tracker`) as far as the router uses it. -/
structure TrackerLib where
  /-- `tracker.GetTrackingServerLocationFromURL`. -/
  GetTrackingServerLocationFromURL : String → String
  /-- `tracker.CreateTrackerListRouterWithStrings(origin, url).LookupAlias(alias)`:
  the answer of the tracker at `url` to a lookup made under identity `origin`. -/
  LookupAlias : Option Identity → String → String → Option Address × Option Err

/-- The struct `Router`. -/
structure Router where
  Origin : Option Identity
  deriving DecidableEq, Repr

/-- The error `Router.LookupAlias` returns when `len(comp) != 2`. -/
def errNoTracker : Err := .text "Can't use lookup router without tracker address."

/-- The method `Router.LookupAlias`. The source calls `strings.Split("@", from)`:
the string split is `"@"` and the separator is the alias. -/
def Router.LookupAlias (lib : TrackerLib) (a : Router) («from» : String) :
    Option Address × Option Err :=
  let comp := strings.Split "@" «from»
  if h : comp.length ≠ 2 then (none, some errNoTracker)
  else
    let url := lib.GetTrackingServerLocationFromURL (comp.get ⟨1, by omega⟩)
    lib.LookupAlias a.Origin url «from»

/-- The method `Router.Lookup`. -/
def Router.Lookup (_a : Router) (_from : String) : Option Address × Option Err :=
  (none, some (.text "Can't use lookup router for non-aliased names."))

/-- The method `Router.Register`. -/
def Router.Register (_a : Router) (_key : Option Identity) (_alias : String) : Option Err :=
  some (.text "Can't use LookupRouter for registration.")

/-- A value of the interface `routing.Router` as `InitRouter` builds it. -/
inductive RouterValue where
  /-- `&tracker.TrackerRouter{url, origin}`. -/
  | tracker (url : String) (origin : Option Identity)
  /-- `&Router{origin}`. -/
  | lookup (r : Router)
  deriving DecidableEq, Repr

/-- The package-level variables of `router.go`, with the number of calls made to
`identity.CreateIdentity` so far. -/
structure Globals where
  ServerKey : Option Identity
  RegistrationRouter : Option RouterValue
  LookupRouter : Option RouterValue
  created : Nat
  deriving DecidableEq, Repr

/-- The function `InitRouter`. `createIdentity k` is what the `k`-th call of
`identity.CreateIdentity` returns (its error is dropped by the source, so the
identity may be nil). -/
def InitRouter (lib : TrackerLib) (createIdentity : Nat → Option Identity) (g : Globals) :
    Globals :=
  let g1 :=
    if g.ServerKey = none then
      { g with ServerKey := createIdentity g.created, created := g.created + 1 }
    else g
  let g2 :=
    if g1.RegistrationRouter = none then
      { g1 with RegistrationRouter := some (RouterValue.tracker
          (lib.GetTrackingServerLocationFromURL "airdispat.ch") g1.ServerKey) }
    else g1
  if g2.LookupRouter = none then
    { g2 with LookupRouter := some (RouterValue.lookup ⟨g2.ServerKey⟩) }
  else g2

/-- A tracker library for examples: the location is the domain with a port, and the
tracker knows every alias. -/
def demoLib : TrackerLib where
  GetTrackingServerLocationFromURL := fun d => d ++ ":1024"
  LookupAlias := fun _ url name => (some ⟨name, url, []⟩, none)

/-! ## `server/dap/client.go` -/

/-- The type `message.Header`. -/
structure Header where
  From : Address
  To : Address
  EncryptionKey : List Nat
  deriving DecidableEq, Repr

/-- One named component of a mail. -/
structure Component where
  Name : String
  Data : List Nat
  deriving DecidableEq, Repr

/-- The type `message.Mail`: header, creation time and named components. -/
structure Mail where
  From : Address
  To : Address
  Created : Int
  Components : List Component
  deriving DecidableEq, Repr

/-- A value of `*message.SignedMessage`, a library value identified by its bytes. -/
structure SignedMessage where
  raw : List Nat
  deriving DecidableEq, Repr

/-- A value of `*message.EncryptedMessage`, a library value identified by its bytes. -/
structure EncryptedMessage where
  raw : List Nat
  deriving DecidableEq, Repr

/-- The wire message a request carries (package `melange/dap/wire`). -/
inductive WireMessage where
  | Register (Keys : List (String × List Nat))
  | Unregister (Keys : List (String × List Nat))
  | DownloadMessages (Since : Nat) (Context : Bool)
  | PublishMessage (To : List String) (Name : String) (Alert : Bool) (Data : List Nat)
  | UpdateMessage (Name : String) (Data : List Nat)
  | Data (Key : String) (Data : List Nat)
  | GetData (Key : String)
  deriving DecidableEq, Repr

/-- The struct `RawMessage`. -/
structure RawMessage where
  Message : WireMessage
  Code : String
  Head : Header
  deriving DecidableEq, Repr

/-- The struct `Response` as far as the client reads it (`Length` is a `uint64`). -/
structure Response where
  Code : Nat
  Length : Nat
  Data : List Nat
  deriving DecidableEq, Repr

/-- A value of `*ResponseMessage`, identified by its content. -/
structure ResponseMessage where
  raw : List Nat
  deriving DecidableEq, Repr

/-- The wire type tags the client uses (constants of `melange/dap/wire` and of
`airdispat.ch/wire`, whose values are not part of these sources). -/
structure Codes where
  ErrorCode : String
  ResponseCode : String
  ResponseMessageCode : String
  RegisterCode : String
  UnregisterCode : String
  DownloadMessagesCode : String
  PublishMessageCode : String
  UpdateMessageCode : String
  DataCode : String
  GetDataCode : String

/-- A connection the client has opened, seen from the client: the outcome of writing
a request to it, and what each successive read of it returns. -/
structure Conn where
  /-- `message.SignAndSendToConnection(msg, key, server, conn)`. -/
  send : RawMessage → Option Err
  /-- `frames k` is the result of the `k`-th `message.ReadMessageFromConnection(conn)`. -/
  frames : Nat → Except Err EncryptedMessage

/-- How a call ends: it returns its results, or it panics. -/
inductive Outcome (α : Type) where
  | returned (value : α)
  | panicked (reason : String)
  deriving DecidableEq, Repr

/-- What a call did to its connection: requests written, reads made, and whether the
deferred `conn.Close()` ran. -/
structure ConnLog where
  opened : Bool
  sent : List RawMessage
  reads : Nat
  closed : Bool
  deriving DecidableEq, Repr

/-- The libraries and the network the client calls. A library function with a Go
result `(T, error)` is an `Except Err T`: the client reads the value only when the
error is nil. -/
structure ClientEnv where
  codes : Codes
  /-- The largest length `n` for which `make([]*ResponseMessage, n)` does not panic.
  It depends on the platform and is below `2^61` on all of them: the size of the
  slice in bytes, eight per pointer, has to fit a machine word. -/
  makeLimit : Nat
  /-- `crypto.RSAToBytes`. -/
  RSAToBytes : List Nat → List Nat
  /-- `crypto.HashSHA`. -/
  HashSHA : List Nat → List Nat
  /-- `message.SendMessageAndReceiveWithTimestamp(msg, key, server)`. -/
  SendMessageAndReceiveWithTimestamp :
    RawMessage → Identity → Address → Except Err (List Nat × String × Header)
  /-- `adErrors.CreateErrorFromBytes`. -/
  CreateErrorFromBytes : List Nat → Header → Option AdError
  /-- `CreateResponseFromBytes` (package `dap`). -/
  CreateResponseFromBytes : List Nat → Header → Except Err Response
  /-- `CreateResponseMessageFromBytes` (package `dap`). -/
  CreateResponseMessageFromBytes : List Nat → Header → Except Err ResponseMessage
  /-- `message.SignMessage(msg, key)`. -/
  SignMessage : Mail → Identity → Except Err SignedMessage
  /-- `signed.UnencryptedMessage(nil)`. -/
  UnencryptedMessage : SignedMessage → Except Err EncryptedMessage
  /-- `signed.EncryptWithKey(addr)`. -/
  EncryptWithKey : SignedMessage → Address → Except Err EncryptedMessage
  /-- `enc.ToBytes()`. -/
  ToBytes : EncryptedMessage → Except Err (List Nat)
  /-- `msg.Decrypt(key)`. -/
  Decrypt : EncryptedMessage → Identity → Except Err SignedMessage
  /-- `signed.Verify()`. -/
  Verify : SignedMessage → Bool
  /-- `signed.ReconstructMessageWithTimestamp()`. -/
  ReconstructMessageWithTimestamp : SignedMessage → Except Err (List Nat × String × Header)
  /-- `signed.ReconstructMessage()`. -/
  ReconstructMessage : SignedMessage → Except Err (List Nat × String × Header)
  /-- `message.ConnectToServer(location)`. -/
  ConnectToServer : String → Except Err Conn

/-- The struct `Client`. -/
structure Client where
  Key : Identity
  Server : Address
  deriving DecidableEq, Repr

/-- The method `Client.checkForError`. -/
def Client.checkForError (env : ClientEnv) (_c : Client) (d : List Nat) (typ : String)
    (h : Header) : Option AdError :=
  if typ ≠ env.codes.ErrorCode then none
  else env.CreateErrorFromBytes d h

/-- The function `CreateClient`; `none` is the panic on an address without location. -/
def CreateClient (key : Identity) (server : Address) : Option Client :=
  if server.Location = "" then none
  else some ⟨key, server⟩

/-- The method `Client.createHeader`: `message.CreateHeader(from, to)` with the
encryption key then set from the client's own key. -/
def Client.createHeader (env : ClientEnv) (c : Client) («to» : Address) : Header :=
  let header : Header := { From := c.Key.Address, To := «to», EncryptionKey := [] }
  { header with EncryptionKey := env.RSAToBytes c.Key.Address.EncryptionKey }

/-- The method `Client.sendAndGetResponse`. -/
def Client.sendAndGetResponse (env : ClientEnv) (c : Client) (msg : RawMessage) :
    Except Err Response :=
  match env.SendMessageAndReceiveWithTimestamp msg c.Key c.Server with
  | .error err => .error err
  | .ok (data, typ, head) =>
    match c.checkForError env data typ head with
    | some adErr => .error (.remote adErr)
    | none =>
      if typ ≠ env.codes.ResponseCode then .error (.text ("Unexpected response type:" ++ typ))
      else env.CreateResponseFromBytes data head

/-- The method `Client.sendAndCheck`. -/
def Client.sendAndCheck (env : ClientEnv) (c : Client) (msg : RawMessage) : Option Err :=
  match c.sendAndGetResponse env msg with
  | .error err => some err
  | .ok response =>
    if response.Code ≠ 0 then some (.text "Unexpected Return Type")
    else none

/-- The method `Client.Register`; `keys` lists the map in its iteration order. -/
def Client.Register (env : ClientEnv) (c : Client) (keys : List (String × List Nat)) :
    Option Err :=
  let msg : RawMessage :=
    { Message := .Register keys, Code := env.codes.RegisterCode,
      Head := c.createHeader env c.Server }
  c.sendAndCheck env msg

/-- The method `Client.Unregister`; `keys` lists the map in its iteration order. -/
def Client.Unregister (env : ClientEnv) (c : Client) (keys : List (String × List Nat)) :
    Option Err :=
  let msg : RawMessage :=
    { Message := .Unregister keys, Code := env.codes.UnregisterCode,
      Head := c.createHeader env c.Server }
  c.sendAndCheck env msg

/-- The method `Client.decryptAndVerify`. -/
def Client.decryptAndVerify (env : ClientEnv) (c : Client) (msg : EncryptedMessage)
    (ts : Bool) : Except Err (List Nat × String × Header) :=
  match env.Decrypt msg c.Key with
  | .error err => .error err
  | .ok receivedSign =>
    if !env.Verify receivedSign then .error (.text "Unable to Verify Message")
    else if ts then env.ReconstructMessageWithTimestamp receivedSign
    else env.ReconstructMessage receivedSign

/-- The method `Client.signAndEncrypt`. -/
def Client.signAndEncrypt (env : ClientEnv) (c : Client) (msg : Mail) («to» : List Address) :
    Except Err (List Nat) :=
  match env.SignMessage msg c.Key with
  | .error err => .error err
  | .ok signed =>
    match «to» with
    | [] =>
      match env.UnencryptedMessage signed with
      | .error err => .error err
      | .ok enc => env.ToBytes enc
    | to0 :: _ =>
      match env.EncryptWithKey signed to0 with
      | .error err => .error err
      | .ok enc => env.ToBytes enc

/-- The header step of `Client.DownloadMessages` (read, decrypt and verify, check the
wire type, decode) on the read numbered `k` of the connection. -/
def Client.readResponse (env : ClientEnv) (c : Client) (conn : Conn) (k : Nat) :
    Except Err Response :=
  match conn.frames k with
  | .error err => .error err
  | .ok responseContainer =>
    match c.decryptAndVerify env responseContainer true with
    | .error err => .error err
    | .ok (data, typ, head) =>
      if typ ≠ env.codes.ResponseCode then .error (.text "Unexpected message type.")
      else env.CreateResponseFromBytes data head

/-- The body of the loop of `Client.DownloadMessages` up to the assignment (read,
decrypt and verify, check the wire type, decode) on the read numbered `k` of the
connection. -/
def Client.readResponseMessage (env : ClientEnv) (c : Client) (conn : Conn) (k : Nat) :
    Except Err ResponseMessage :=
  match conn.frames k with
  | .error err => .error err
  | .ok responseContainer =>
    match c.decryptAndVerify env responseContainer true with
    | .error err => .error err
    | .ok (data, typ, head) =>
      if typ ≠ env.codes.ResponseMessageCode then .error (.text "Unexpected message type.")
      else env.CreateResponseMessageFromBytes data head

/-- The loop `for i := uint64(0); i < response.Length; i++` of
`Client.DownloadMessages`, with `n` iterations left: `i` is the loop counter, `reads`
the number of reads made on the connection so far, `messages` the slice being filled.
The result is the pair returned with the number of reads made. -/
def Client.readMessages (env : ClientEnv) (c : Client) (conn : Conn) :
    Nat → Nat → Nat → List (Option ResponseMessage) →
      (List (Option ResponseMessage) × Option Err) × Nat
  | 0, _, reads, messages => ((messages, none), reads)
  | n + 1, i, reads, messages =>
    match c.readResponseMessage env conn reads with
    | .error err => (([], some err), reads + 1)
    | .ok rspMsg =>
      Client.readMessages env c conn n (i + 1) (reads + 1) (messages.set i (some rspMsg))

/-- The request `Client.DownloadMessages` sends. -/
def Client.downloadRequest (env : ClientEnv) (c : Client) (since : Nat) (context : Bool) :
    RawMessage :=
  { Message := .DownloadMessages since context, Code := env.codes.DownloadMessagesCode,
    Head := c.createHeader env c.Server }

/-- The method `Client.DownloadMessages`: how it ends, returning a pair (a slice of
pointers and an error) or panicking, with what it did to the connection. The call
`make([]*ResponseMessage, response.Length)` panics when the length announced by the
server is beyond what `make` accepts; otherwise the slice holds `Length` nil
pointers. The deferred `conn.Close()` runs in either case. -/
def Client.DownloadMessages (env : ClientEnv) (c : Client) (since : Nat) (context : Bool) :
    Outcome (List (Option ResponseMessage) × Option Err) × ConnLog :=
  let msg := c.downloadRequest env since context
  match env.ConnectToServer c.Server.Location with
  | .error err => (.returned ([], some err), ⟨false, [], 0, false⟩)
  | .ok conn =>
    match conn.send msg with
    | some err => (.returned ([], some err), ⟨true, [msg], 0, true⟩)
    | none =>
      match c.readResponse env conn 0 with
      | .error err => (.returned ([], some err), ⟨true, [msg], 1, true⟩)
      | .ok response =>
        if response.Length = 0 then (.returned ([], none), ⟨true, [msg], 1, true⟩)
        else if env.makeLimit < response.Length then
          (.panicked "makeslice: len out of range", ⟨true, [msg], 1, true⟩)
        else
          let messages : List (Option ResponseMessage) := List.replicate response.Length none
          let r := Client.readMessages env c conn response.Length 0 1 messages
          (.returned r.1, ⟨true, [msg], r.2, true⟩)

/-- The read numbered `k` of the connection does not yield a message of the wire type
`code` that `decode` accepts: the read fails, or the decryption, or the verification,
or the reconstruction, or the wire type is another one, or the decoding fails. -/
def FrameFails {α : Type} (env : ClientEnv) (c : Client) (conn : Conn) (k : Nat)
    (code : String) (decode : List Nat → Header → Except Err α) : Prop :=
  (∃ e, conn.frames k = .error e) ∨
  (∃ f e, conn.frames k = .ok f ∧ env.Decrypt f c.Key = .error e) ∨
  (∃ f sg, conn.frames k = .ok f ∧ env.Decrypt f c.Key = .ok sg ∧ env.Verify sg = false) ∨
  (∃ f sg e, conn.frames k = .ok f ∧ env.Decrypt f c.Key = .ok sg ∧ env.Verify sg = true ∧
    env.ReconstructMessageWithTimestamp sg = .error e) ∨
  (∃ f sg data typ head, conn.frames k = .ok f ∧ env.Decrypt f c.Key = .ok sg ∧
    env.Verify sg = true ∧ env.ReconstructMessageWithTimestamp sg = .ok (data, typ, head) ∧
    typ ≠ code) ∨
  (∃ f sg data head e, conn.frames k = .ok f ∧ env.Decrypt f c.Key = .ok sg ∧
    env.Verify sg = true ∧ env.ReconstructMessageWithTimestamp sg = .ok (data, code, head) ∧
    decode data head = .error e)

/-- The read numbered `k` of the connection yields a message that decrypts, verifies,
has the wire type `code` and decodes to `a`. -/
def FrameIs {α : Type} (env : ClientEnv) (c : Client) (conn : Conn) (k : Nat)
    (code : String) (decode : List Nat → Header → Except Err α) (a : α) : Prop :=
  ∃ f sg data head, conn.frames k = .ok f ∧ env.Decrypt f c.Key = .ok sg ∧
    env.Verify sg = true ∧ env.ReconstructMessageWithTimestamp sg = .ok (data, code, head) ∧
    decode data head = .ok a

/-- The header response fails one of its steps. -/
def HeaderFails (env : ClientEnv) (c : Client) (conn : Conn) : Prop :=
  FrameFails env c conn 0 env.codes.ResponseCode env.CreateResponseFromBytes

/-- The header response is valid and decodes to `response`. -/
def HeaderIs (env : ClientEnv) (c : Client) (conn : Conn) (response : Response) : Prop :=
  FrameIs env c conn 0 env.codes.ResponseCode env.CreateResponseFromBytes response

/-- The sub-message `k` (the read numbered `k + 1`) fails one of its steps. -/
def SubMessageFails (env : ClientEnv) (c : Client) (conn : Conn) (k : Nat) : Prop :=
  FrameFails env c conn (k + 1) env.codes.ResponseMessageCode
    env.CreateResponseMessageFromBytes

/-- The sub-message `k` (the read numbered `k + 1`) is valid and decodes to `m`. -/
def SubMessageIs (env : ClientEnv) (c : Client) (conn : Conn) (k : Nat)
    (m : ResponseMessage) : Prop :=
  FrameIs env c conn (k + 1) env.codes.ResponseMessageCode
    env.CreateResponseMessageFromBytes m

/-- Go `hex.EncodeToString`: two lower-case digits per byte. -/
def hexEncodeToString (src : List Nat) : String :=
  let hextable : List Char := "0123456789abcdef".data
  String.mk (src.flatMap fun v =>
    [hextable.getD ((v % 256) / 16) '0', hextable.getD ((v % 256) % 16) '0'])

/-- The method `Client.PublishMessage`: the pair it returns, with the requests it
handed to the network. -/
def Client.PublishMessage (env : ClientEnv) (c : Client) (enc : Mail) («to» : List Address)
    (name : String) (alert_ : Bool) : (String × Option Err) × List RawMessage :=
  match c.signAndEncrypt env enc «to» with
  | .error err => (("", some err), [])
  | .ok bytes =>
    let name := if name = "" then hexEncodeToString (env.HashSHA bytes) else name
    let toAddrs := «to».map Address.String
    let msg : RawMessage :=
      { Message := .PublishMessage toAddrs name alert_ bytes,
        Code := env.codes.PublishMessageCode, Head := c.createHeader env c.Server }
    ((name, c.sendAndCheck env msg), [msg])

/-- The method `Client.UpdateMessage`: the error it returns, with the requests it
handed to the network. -/
def Client.UpdateMessage (env : ClientEnv) (c : Client) (enc : Mail) («to» : List Address)
    (name : String) : Option Err × List RawMessage :=
  match c.signAndEncrypt env enc «to» with
  | .error err => (some err, [])
  | .ok bytes =>
    if name = "" then (some (.text "A named message to update is required."), [])
    else
      let msg : RawMessage :=
        { Message := .UpdateMessage name bytes,
          Code := env.codes.UpdateMessageCode, Head := c.createHeader env c.Server }
      (c.sendAndCheck env msg, [msg])

/-- The method `Client.SetData`. -/
def Client.SetData (env : ClientEnv) (c : Client) (key : String) (value : List Nat) :
    Option Err :=
  let msg : RawMessage :=
    { Message := .Data key value, Code := env.codes.DataCode,
      Head := c.createHeader env c.Server }
  c.sendAndCheck env msg

/-- The method `Client.GetData`. -/
def Client.GetData (env : ClientEnv) (c : Client) (key : String) :
    List Nat × Option Err :=
  let msg : RawMessage :=
    { Message := .GetData key, Code := env.codes.GetDataCode,
      Head := c.createHeader env c.Server }
  match c.sendAndGetResponse env msg with
  | .error err => ([], some err)
  | .ok resp => (resp.Data, none)

/-! ## `mailserver/framework.go` -/

namespace models

/-- A row of `dispatch_subscription` (type `models.UserSubscription`). -/
structure UserSubscription where
  UserId : Nat
  Address : String
  deriving DecidableEq, Repr

/-- A row of `dispatch_alerts` (type `models.Alert`). -/
structure Alert where
  To : String
  From : String
  Name : String
  Timestamp : Int
  deriving DecidableEq, Repr

/-- A row of `dispatch_messages` (type `models.Message`); `To` is a comma-separated
list of recipients. -/
structure Message where
  Name : String
  To : String
  From : String
  Timestamp : Int
  Data : List Nat
  deriving DecidableEq, Repr

/-- The type `models.User`. -/
structure User where
  UserId : Nat
  Name : String
  deriving DecidableEq, Repr

/-- A row of `dispatch_identity` (type `models.Identity`). -/
structure Identity where
  UserId : Nat
  Fingerprint : String
  deriving DecidableEq, Repr

end models

namespace server

/-- The type `server.MessageDescription`. -/
structure MessageDescription where
  Name : String
  Location : String
  deriving DecidableEq, Repr

/-- The type `server.MessageList`. -/
structure MessageList where
  Content : List MessageDescription
  deriving DecidableEq, Repr

/-- The requests `server.CreateTransferMessage(name, from, to)` and
`server.CreateTransferMessageList(since, from, to)` build. -/
inductive TransferRequest where
  | CreateTransferMessage (name : String) (author : Address) (addr : Address)
  | CreateTransferMessageList (since : Nat) (author : Address) (addr : Address)
  deriving DecidableEq, Repr

end server

/-- Modelled from the spec: the type `MelangeMessage`, declared in a file of package
`mailserver` that is not among these sources. The spec gives it as "underlying
Message, is-public flag, effective timestamp". -/
structure MelangeMessage where
  Mail : Mail
  Public : Bool
  Timestamp : Int
  deriving DecidableEq, Repr

/-- Modelled from the spec: the method `MessageList.Less` that `sort.Sort` is given,
declared with `MelangeMessage`. The spec orders the feed "by effective timestamp
ascending". -/
def MessageList.Less (a b : MelangeMessage) : Bool :=
  decide (a.Timestamp < b.Timestamp)

/-- The inner loop of Go `insertionSort`: the new element `x` is swapped leftwards as
long as it is `less` than its left neighbour. `done` is the part already ordered,
nearest neighbour first. -/
def insertionStep {α : Type} (less : α → α → Bool) (x : α) : List α → List α
  | [] => [x]
  | y :: ys => if less x y then y :: insertionStep less x ys else x :: y :: ys

/-- Go `sort.Sort`, embedded as the library's insertion sort (the algorithm it runs on
short slices). The library leaves the order of elements that compare equal open. -/
def sortSort {α : Type} (less : α → α → Bool) (data : List α) : List α :=
  (data.foldl (fun done x => insertionStep less x done) []).reverse

/-- The conversion `uint64(since)` of an `int64`. -/
def uint64 (x : Int) : Nat :=
  (x % 2 ^ 64).toNat

/-- The state of a run: the world outside the process (database, network), and the
errors with which steps of the run have ended so far. -/
structure Run (σ : Type) where
  world : σ
  failed : List Err

/-- A computation of the synchronisation code: it either yields a value or stops with
an error (`return nil, err`), and moves the run on. -/
def Sync (σ α : Type) : Type :=
  Run σ → Except Err α × Run σ

/-- A computation that yields `a`. -/
def Sync.pure {σ α : Type} (a : α) : Sync σ α :=
  fun w => (.ok a, w)

/-- Sequencing: an error of the first computation ends the whole. -/
def Sync.bind {σ α β : Type} (m : Sync σ α) (f : α → Sync σ β) : Sync σ β :=
  fun w =>
    match m w with
    | (.ok a, w1) => f a w1
    | (.error e, w1) => (.error e, w1)

instance {σ : Type} : Monad (Sync σ) where
  pure := Sync.pure
  bind := Sync.bind

/-- A call of an operation of the world that may fail; its failure is noted. -/
def Sync.step {σ α : Type} (op : σ → Except Err α × σ) : Sync σ α :=
  fun w =>
    match op w.world with
    | (.ok a, s) => (.ok a, { w with world := s })
    | (.error e, s) => (.error e, { world := s, failed := w.failed ++ [e] })

/-- A call of an operation of the world that cannot fail. -/
def Sync.call {σ α : Type} (op : σ → α × σ) : Sync σ α :=
  fun w =>
    match op w.world with
    | (a, s) => (.ok a, { w with world := s })

/-- A decoding step that may fail; its failure is noted. -/
def Sync.check {σ α : Type} (r : Except Err α) : Sync σ α :=
  fun w =>
    match r with
    | .ok a => (.ok a, w)
    | .error e => (.error e, { w with failed := w.failed ++ [e] })

/-- A value of the interface `routing.Router`, as far as the framework calls it. By
the interface's contract a nil error comes with an address. -/
structure RoutingRouter (σ : Type) where
  LookupAlias : String → σ → Except Err Address × σ

/-- The libraries, the database and the network the framework calls. -/
structure SyncEnv (σ : Type) where
  /-- `wire.MailCode`. -/
  MailCode : String
  /-- `wire.MessageListCode`. -/
  MessageListCode : String
  /-- `db.Select(&s, "select * from dispatch_subscription where userid = $1", id)`. -/
  selectSubscriptions : Nat → σ → Except Err (List models.UserSubscription) × σ
  /-- `db.Select(&ale, "select * from dispatch_alerts where \"to\" = $1 and timestamp > $2",
  addr, since)`. -/
  selectAlerts : String → Int → σ → Except Err (List models.Alert) × σ
  /-- `db.Select(&msg, "select * from dispatch_messages where \"from\" = $1 and
  timestamp > $2", addr, since)`. -/
  selectMessages : String → Int → σ → Except Err (List models.Message) × σ
  /-- `message.SendMessageAndReceiveWithoutTimestamp(msg, from, addr)`. -/
  SendMessageAndReceiveWithoutTimestamp : server.TransferRequest → Identity → Address →
    σ → Except Err (List Nat × String × Header) × σ
  /-- `message.SendMessageAndReceive(msg, from, addr)`. -/
  SendMessageAndReceive : server.TransferRequest → Identity → Address →
    σ → Except Err (List Nat × String × Header) × σ
  /-- `message.CreateMailFromBytes`. -/
  CreateMailFromBytes : List Nat → Header → Except Err Mail
  /-- `server.CreateMessageListFromBytes`. -/
  CreateMessageListFromBytes : List Nat → Header → Except Err server.MessageList
  /-- `v.DownloadMessageFromAlert(db, r)`. -/
  DownloadMessageFromAlert : models.Alert → σ → Except Err Mail × σ
  /-- `v.ToDispatch(db, recipient)`. -/
  ToDispatch : models.Message → String → σ → Except Err Mail × σ
  /-- `CreatePluginMail(r, mail, from, public)` (package `mailserver`). -/
  CreatePluginMail : Mail → Identity → Bool → σ → MelangeMessage × σ

/-- The function `DownloadMessage`. -/
def DownloadMessage {σ : Type} (env : SyncEnv σ) (r : RoutingRouter σ) (msgName : String)
    («from» : Identity) («to» : String) (toServer : String) : Sync σ Mail := do
  let addr ← Sync.step (r.LookupAlias «to»)
  let addr := if toServer ≠ "" then { addr with Location := toServer } else addr
  let txMsg := server.TransferRequest.CreateTransferMessage msgName «from».Address addr
  let reply ← Sync.step (env.SendMessageAndReceiveWithoutTimestamp txMsg «from» addr)
  if reply.2.1 ≠ env.MailCode then
    Sync.check (.error (.text "Wrong message type."))
  else
    Sync.check (env.CreateMailFromBytes reply.1 reply.2.2)

/-- The function `GetProfile`. -/
def GetProfile {σ : Type} (env : SyncEnv σ) (r : RoutingRouter σ) («from» : Identity)
    («to» : String) : Sync σ Mail :=
  DownloadMessage env r "profile" «from» «to» ""

/-- The function `DownloadPublicMail`. -/
def DownloadPublicMail {σ : Type} (env : SyncEnv σ) (r : RoutingRouter σ) (since : Nat)
    («from» : Identity) («to» : String) : Sync σ server.MessageList := do
  let addr ← Sync.step (r.LookupAlias «to»)
  let txMsg := server.TransferRequest.CreateTransferMessageList since «from».Address addr
  let reply ← Sync.step (env.SendMessageAndReceive txMsg «from» addr)
  if reply.2.1 ≠ env.MessageListCode then
    Sync.check (.error (.text "Wrong message type."))
  else if reply.1.length = 0 then
    Sync.pure { Content := [] }
  else
    Sync.check (env.CreateMessageListFromBytes reply.1 reply.2.2)

/-- The inner loop of the public pass of `Messages`: every message the list
describes is fetched and appended to `out`. -/
def fetchListed {σ : Type} (env : SyncEnv σ) (r : RoutingRouter σ) («from» : Identity)
    (address : String) : List server.MessageDescription → List MelangeMessage →
      Sync σ (List MelangeMessage)
  | [], out => Sync.pure out
  | txn :: rest, out => do
    let rmsg ← DownloadMessage env r txn.Name «from» address txn.Location
    let item ← Sync.call (env.CreatePluginMail rmsg «from» true)
    fetchListed env r «from» address rest (out ++ [item])

/-- The outer loop of the public pass of `Messages`, over the subscriptions. -/
def fetchSubscribed {σ : Type} (env : SyncEnv σ) (r : RoutingRouter σ) («from» : Identity)
    (since : Int) : List models.UserSubscription → List MelangeMessage →
      Sync σ (List MelangeMessage)
  | [], out => Sync.pure out
  | v :: rest, out => do
    let msg ← DownloadPublicMail env r (uint64 since) «from» v.Address
    let out ← fetchListed env r «from» v.Address msg.Content out
    fetchSubscribed env r «from» since rest out

/-- The block `if public { ... }` of `Messages`. -/
def publicPass {σ : Type} (env : SyncEnv σ) (r : RoutingRouter σ) («from» : Identity)
    (fromUser : models.User) (since : Int) (out : List MelangeMessage) :
    Sync σ (List MelangeMessage) := do
  let s ← Sync.step (env.selectSubscriptions fromUser.UserId)
  fetchSubscribed env r «from» since s out

/-- The loop of the private pass of `Messages`, over the alerts. -/
def fetchAlerted {σ : Type} (env : SyncEnv σ) («from» : Identity) :
    List models.Alert → List MelangeMessage → Sync σ (List MelangeMessage)
  | [], out => Sync.pure out
  | v :: rest, out => do
    let msg ← Sync.step (env.DownloadMessageFromAlert v)
    let item ← Sync.call (env.CreatePluginMail msg «from» false)
    fetchAlerted env «from» rest (out ++ [item])

/-- The block `if private { ... }` of `Messages`. -/
def privatePass {σ : Type} (env : SyncEnv σ) («from» : Identity) (since : Int)
    (out : List MelangeMessage) : Sync σ (List MelangeMessage) := do
  let ale ← Sync.step (env.selectAlerts «from».Address.String since)
  fetchAlerted env «from» ale out

/-- The loop of the self pass of `Messages`, over the stored messages; the recipient
is `strings.Split(v.To, ",")[0]` (a split by a non-empty separator has a first
element). -/
def fetchOwn {σ : Type} (env : SyncEnv σ) («from» : Identity) :
    List models.Message → List MelangeMessage → Sync σ (List MelangeMessage)
  | [], out => Sync.pure out
  | v :: rest, out => do
    let dmsg ← Sync.step (env.ToDispatch v ((strings.Split v.To ",").headD ""))
    let item ← Sync.call (env.CreatePluginMail dmsg «from» false)
    fetchOwn env «from» rest (out ++ [item])

/-- The block `if self { ... }` of `Messages`. -/
def selfPass {σ : Type} (env : SyncEnv σ) («from» : Identity) (since : Int)
    (out : List MelangeMessage) : Sync σ (List MelangeMessage) := do
  let msg ← Sync.step (env.selectMessages «from».Address.String since)
  fetchOwn env «from» msg out

/-- The function `Messages`: the pair it returns (feed and error), with the run after
it. A pass that is switched off leaves `out` as it is. -/
def Messages {σ : Type} (env : SyncEnv σ) (r : RoutingRouter σ) («from» : Identity)
    (fromUser : models.User) («public» «private» self : Bool) (since : Int) (w : Run σ) :
    (List MelangeMessage × Option Err) × Run σ :=
  let out : List MelangeMessage := []
  match (if «public» then publicPass env r «from» fromUser since out else Sync.pure out) w with
  | (.error err, w) => (([], some err), w)
  | (.ok out, w) =>
    match (if «private» then privatePass env «from» since out else Sync.pure out) w with
    | (.error err, w) => (([], some err), w)
    | (.ok out, w) =>
      match (if self then selfPass env «from» since out else Sync.pure out) w with
      | (.error err, w) => (([], some err), w)
      | (.ok out, w) => ((sortSort MessageList.Less out, none), w)

/-- A computation keeps the record of failures true: started with nothing failed, it
yields a value with nothing failed, or stops with an error that is the one failure
recorded. -/
def Sync.Sound {σ α : Type} (m : Sync σ α) : Prop :=
  ∀ w : Run σ, w.failed = [] →
    match m w with
    | (.ok _, w1) => w1.failed = []
    | (.error e, w1) => w1.failed = [e]

/-- A computation appends to the items gathered so far: run with `out`, it does what
it does run with the nil slice, and yields `out` followed by the items gathered. -/
def Sync.Appends {σ : Type} (f : List MelangeMessage → Sync σ (List MelangeMessage)) : Prop :=
  ∀ (out : List MelangeMessage) (w : Run σ),
    f out w =
      match f [] w with
      | (.ok items, w1) => (.ok (out ++ items), w1)
      | (.error e, w1) => (.error e, w1)

/-! ## `server/mailserver/mailserver/mailserver.go` -/

/-- The conversion `[]byte(s)` of a string: its UTF-8 encoding. -/
def stringBytes (s : String) : List Nat :=
  s.data.flatMap (fun ch => (String.utf8EncodeChar ch).map UInt8.toNat)

/-- What a handler of the mail server does to its surroundings: the queries it runs
on the database map and the errors it reports through `HandleError`. -/
inductive ServerEvent where
  /-- `Map.Select(&id, "select * from dispatch_identity where fingerprint = $1", fp)`. -/
  | SelectIdentity (fingerprint : String)
  /-- `Map.Get(&models.User{}, id)`. -/
  | GetUser (id : Nat)
  /-- `Map.Select(&results, "select * from dispatch_messages where name = $1 and
  "from" = $2", name, author)`. -/
  | SelectMessages (name : String) (author : String)
  /-- `HandleError(&server.ServerError{context, err})`. -/
  | HandleError (context : String) (err : Err)
  deriving DecidableEq, Repr

/-- The database and the libraries the mail server calls. -/
structure ServerEnv where
  /-- The rows of `dispatch_identity` with the given fingerprint. -/
  selectIdentity : String → Except Err (List models.Identity)
  /-- The result of `Map.Get(&models.User{}, id)`; `none` is a value that is not a
  `*models.User` (the nil interface `Get` returns when no row has the key). -/
  getUser : Nat → Except Err (Option models.User)
  /-- The rows of `dispatch_messages` with the given name and author. -/
  selectMessages : String → String → Except Err (List models.Message)
  /-- The method `models.Identity.ToDispatch()`. -/
  IdentityToDispatch : models.Identity → Except Err Identity
  /-- The method `models.Message.ToDispatch(map, recipient)`. -/
  MessageToDispatch : models.Message → String → Except Err Mail
  /-- The method `models.User.GetAvatar()`. -/
  GetAvatar : models.User → String
  /-- The value of `time.Now()`. -/
  now : Int

/-- The function `message.CreateMail(from, to, ts)`: a mail without components. -/
def CreateMail (author : Address) («to» : Address) (ts : Int) : Mail :=
  { From := author, To := «to», Created := ts, Components := [] }

/-- The method `Components.AddComponent` on a mail. The two calls the server makes
use different names, so each adds a component. -/
def Mail.AddComponent (m : Mail) (c : Component) : Mail :=
  { m with Components := m.Components ++ [c] }

/-- The method `melangeServer.RetrieveMessageForUser`: the mail it returns (`none`
is nil), with what it did on the way. -/
def melangeServer.RetrieveMessageForUser (env : ServerEnv) (name : String) (author : Address)
    (forAddr : Address) : Option Mail × List ServerEvent :=
  if name = "profile" then
    match env.selectIdentity author.String with
    | .error err =>
      (none, [.SelectIdentity author.String, .HandleError "Loading Profile Identity" err])
    | .ok id =>
      match id with
      | [id0] =>
        match env.getUser id0.UserId with
        | .error err =>
          (none, [.SelectIdentity author.String, .GetUser id0.UserId,
            .HandleError "Getting Profile User" err])
        | .ok none => (none, [.SelectIdentity author.String, .GetUser id0.UserId])
        | .ok (some user) =>
          match env.IdentityToDispatch id0 with
          | .error err =>
            (none, [.SelectIdentity author.String, .GetUser id0.UserId,
              .HandleError "Changing ID To Dispatch Profile" err])
          | .ok did =>
            let m := CreateMail did.Address forAddr env.now
            let m := m.AddComponent ⟨"airdispat.ch/profile/name", stringBytes user.Name⟩
            let m := m.AddComponent
              ⟨"airdispat.ch/profile/avatar", stringBytes (env.GetAvatar user)⟩
            (some m, [.SelectIdentity author.String, .GetUser id0.UserId])
      | _ =>
        (none, [.SelectIdentity author.String,
          .HandleError "Finding Profile User"
            (.text ("Found number of ids " ++ toString id.length))])
  else
    match env.selectMessages name author.String with
    | .error err =>
      (none, [.SelectMessages name author.String,
        .HandleError "Finding Messages for User" err])
    | .ok results =>
      match results with
      | [result0] =>
        match env.MessageToDispatch result0 forAddr.String with
        | .error err =>
          (none, [.SelectMessages name author.String,
            .HandleError "Creating Dispatch Message" err])
        | .ok out => (some out, [.SelectMessages name author.String])
      | _ =>
        (none, [.SelectMessages name author.String,
          .HandleError "Finding Messages for User" (.text "Found wrong number of messages.")])

/-! ## `server/dispatcher/dap_handler.go` -/

namespace dispatcher

/-- A stored message of the dispatcher (type `dispatcher.Message`), as far as the
handler reads it. -/
structure Message where
  Name : String
  To : String
  Data : List Nat
  deriving DecidableEq, Repr

/-- The struct `dispatcher.Server` with the storage and the libraries its handler
calls. -/
structure Server where
  Key : Identity
  /-- The method `GetIncomingMessagesSince(since, owner)`. -/
  GetIncomingMessagesSince : Nat → String → Except Err (List Message)
  /-- The method `Message.ToDispatch(owner)`. -/
  ToDispatch : Message → String → Except Err EncryptedMessage
  /-- The function `dap.CreateResponseMessage(data, from, to)`. -/
  CreateResponseMessage : EncryptedMessage → Address → Address → ResponseMessage
  /-- The function `identity.CreateAddressFromString`. -/
  CreateAddressFromString : String → Address

/-- The loop `for i, v := range msg` of `Server.GetMessages`: `i` is the index of the
first message of the list in `msg`, `out` the slice being filled, `handled` the errors
given to `HandleError` so far. -/
def Server.fillMessages (m : Server) (owner : String) :
    List Message → Nat → List (Option ResponseMessage) → List (String × Err) →
      List (Option ResponseMessage) × List (String × Err)
  | [], _, out, handled => (out, handled)
  | v :: rest, i, out, handled =>
    match m.ToDispatch v owner with
    | .error err =>
      Server.fillMessages m owner rest (i + 1) out
        (handled ++ [("(GetMessages:DAP) Marshalling message", err)])
    | .ok data =>
      Server.fillMessages m owner rest (i + 1)
        (out.set i (some (m.CreateResponseMessage data m.Key.Address
          (m.CreateAddressFromString v.To))))
        handled

/-- The method `Server.GetMessages`: the pair it returns (a slice of pointers and an
error), with the errors it gave to `HandleError`. The slice made by
`make([]*dap.ResponseMessage, len(msg))` holds `len(msg)` nil pointers. -/
def Server.GetMessages (m : Server) (since : Nat) (owner : String) (_context : Bool) :
    (List (Option ResponseMessage) × Option Err) × List (String × Err) :=
  match m.GetIncomingMessagesSince since owner with
  | .error err => (([], some err), [])
  | .ok msg =>
    let out : List (Option ResponseMessage) := List.replicate msg.length none
    let r := Server.fillMessages m owner msg 0 out []
    ((r.1, none), r.2)

end dispatcher

/-! ## The cursor as the database and the servers receive it -/

/-- A use of the cursor that leaves the process during a run of `Messages`. -/
inductive CursorUse where
  /-- A request handed to `message.SendMessageAndReceive`. -/
  | ListRequest (req : server.TransferRequest)
  /-- The arguments of the select on `dispatch_alerts`. -/
  | SelectAlerts (addr : String) (since : Int)
  /-- The arguments of the select on `dispatch_messages`. -/
  | SelectMessages (addr : String) (since : Int)
  deriving DecidableEq, Repr

/-- An operation of the world, run in a world that also keeps a record: the
operation does what it does, and `evs` is added to the record. -/
def recordAs {σ α : Type} (evs : List CursorUse) (op : σ → α × σ) :
    σ × List CursorUse → α × (σ × List CursorUse) :=
  fun w =>
    match op w.1 with
    | (a, s) => (a, (s, w.2 ++ evs))

/-- The router `r` in a world that keeps a record. -/
def RoutingRouter.recording {σ : Type} (r : RoutingRouter σ) :
    RoutingRouter (σ × List CursorUse) where
  LookupAlias := fun name => recordAs [] (r.LookupAlias name)

/-- The environment `env` in a world that keeps a record of the list requests sent
and of the arguments of the selects on alerts and on messages. -/
def SyncEnv.recording {σ : Type} (env : SyncEnv σ) : SyncEnv (σ × List CursorUse) where
  MailCode := env.MailCode
  MessageListCode := env.MessageListCode
  selectSubscriptions := fun uid => recordAs [] (env.selectSubscriptions uid)
  selectAlerts := fun addr since =>
    recordAs [.SelectAlerts addr since] (env.selectAlerts addr since)
  selectMessages := fun addr since =>
    recordAs [.SelectMessages addr since] (env.selectMessages addr since)
  SendMessageAndReceiveWithoutTimestamp := fun req author addr =>
    recordAs [] (env.SendMessageAndReceiveWithoutTimestamp req author addr)
  SendMessageAndReceive := fun req author addr =>
    recordAs [.ListRequest req] (env.SendMessageAndReceive req author addr)
  CreateMailFromBytes := env.CreateMailFromBytes
  CreateMessageListFromBytes := env.CreateMessageListFromBytes
  DownloadMessageFromAlert := fun v => recordAs [] (env.DownloadMessageFromAlert v)
  ToDispatch := fun v rcpt => recordAs [] (env.ToDispatch v rcpt)
  CreatePluginMail := fun mail author pub => recordAs [] (env.CreatePluginMail mail author pub)

/-- The cursor a recorded use carries is the one `Messages` was called with: a list
request carries `uint64(since)`, a select carries `since` itself. -/
def CursorUse.Agrees (since : Int) : CursorUse → Prop
  | .ListRequest req => ∃ a b, req = .CreateTransferMessageList (uint64 since) a b
  | .SelectAlerts _ t => t = since
  | .SelectMessages _ t => t = since

/-- A computation adds to the record only uses that satisfy `P`. -/
def Sync.Keeps {σ α : Type} (P : CursorUse → Prop) (m : Sync (σ × List CursorUse) α) : Prop :=
  ∀ w : Run (σ × List CursorUse), (∀ ev ∈ w.world.2, P ev) → ∀ ev ∈ (m w).2.world.2, P ev

/-- A computation in the world that keeps a record does what the computation `m`
does in the world itself: the same result, the same world, the same failures. -/
def Sync.Erases {σ α : Type} (mr : Sync (σ × List CursorUse) α) (m : Sync σ α) : Prop :=
  ∀ (wr : Run (σ × List CursorUse)) (w : Run σ),
    wr.world.1 = w.world → wr.failed = w.failed →
    (mr wr).1 = (m w).1 ∧ (mr wr).2.world.1 = (m w).2.world ∧ (mr wr).2.failed = (m w).2.failed

/-! ## Failures as the database and the servers see them -/

/-- An operation of the world, run in a world that also keeps a list of the failures
that happened in it: the operation does what it does; when it fails its error is added
to the list, when it succeeds with `a` the list grows by `after a`. -/
def noteFailure {σ α : Type} (after : α → List Err) (op : σ → Except Err α × σ) :
    σ × List Err → Except Err α × (σ × List Err) :=
  fun w =>
    match op w.1 with
    | (.ok a, s) => (.ok a, (s, w.2 ++ after a))
    | (.error e, s) => (.error e, (s, w.2 ++ [e]))

/-- An operation of the world that cannot fail, run in a world that keeps a list of
failures. -/
def noteNothing {σ α : Type} (op : σ → α × σ) : σ × List Err → α × (σ × List Err) :=
  fun w =>
    match op w.1 with
    | (a, s) => (a, (s, w.2))

/-- The failure of a message fetch that lies in the reply of the server: the reply
has another wire type than `wire.MailCode`, or its bytes are not those of a mail. -/
def SyncEnv.mailReplyFailure {σ : Type} (env : SyncEnv σ) (reply : List Nat × String × Header) :
    List Err :=
  if reply.2.1 ≠ env.MailCode then [.text "Wrong message type."]
  else
    match env.CreateMailFromBytes reply.1 reply.2.2 with
    | .error e => [e]
    | .ok _ => []

/-- The failure of a message-list request that lies in the reply of the server: the
reply has another wire type than `wire.MessageListCode`, or its bytes, when there are
any, are not those of a message list. -/
def SyncEnv.listReplyFailure {σ : Type} (env : SyncEnv σ) (reply : List Nat × String × Header) :
    List Err :=
  if reply.2.1 ≠ env.MessageListCode then [.text "Wrong message type."]
  else if reply.1.length = 0 then []
  else
    match env.CreateMessageListFromBytes reply.1 reply.2.2 with
    | .error e => [e]
    | .ok _ => []

/-- The router `r` in a world that keeps a list of failures: a failed alias
resolution is noted. -/
def RoutingRouter.noting {σ : Type} (r : RoutingRouter σ) : RoutingRouter (σ × List Err) where
  LookupAlias := fun name => noteFailure (fun _ => []) (r.LookupAlias name)

/-- The environment `env` in a world that keeps a list of failures: a failed select,
a failed request (the connection fails, or the reply is of the wrong wire type or
cannot be decoded), a failed download of an alerted message and a failed
reconstruction of an own message are noted by the world in which they happen. -/
def SyncEnv.noting {σ : Type} (env : SyncEnv σ) : SyncEnv (σ × List Err) where
  MailCode := env.MailCode
  MessageListCode := env.MessageListCode
  selectSubscriptions := fun uid => noteFailure (fun _ => []) (env.selectSubscriptions uid)
  selectAlerts := fun addr since => noteFailure (fun _ => []) (env.selectAlerts addr since)
  selectMessages := fun addr since => noteFailure (fun _ => []) (env.selectMessages addr since)
  SendMessageAndReceiveWithoutTimestamp := fun req author addr =>
    noteFailure env.mailReplyFailure (env.SendMessageAndReceiveWithoutTimestamp req author addr)
  SendMessageAndReceive := fun req author addr =>
    noteFailure env.listReplyFailure (env.SendMessageAndReceive req author addr)
  CreateMailFromBytes := env.CreateMailFromBytes
  CreateMessageListFromBytes := env.CreateMessageListFromBytes
  DownloadMessageFromAlert := fun v => noteFailure (fun _ => []) (env.DownloadMessageFromAlert v)
  ToDispatch := fun v rcpt => noteFailure (fun _ => []) (env.ToDispatch v rcpt)
  CreatePluginMail := fun mail author pub => noteNothing (env.CreatePluginMail mail author pub)

/-- A computation reports what fails in the world: started where nothing has failed,
it yields a value where nothing has failed, or it stops with the error of the one
failure that happened. -/
def Sync.Reports {σ α : Type} (m : Sync (σ × List Err) α) : Prop :=
  ∀ w : Run (σ × List Err), w.world.2 = [] →
    match m w with
    | (.ok _, w1) => w1.world.2 = []
    | (.error e, w1) => w1.world.2 = [e]

/-- A computation in a world that keeps something more does what the computation
`m` does in the world itself: the same result, the same world, the same failures of
the run. -/
def Sync.Mirrors {σ τ α : Type} (mr : Sync (σ × τ) α) (m : Sync σ α) : Prop :=
  ∀ (wr : Run (σ × τ)) (w : Run σ),
    wr.world.1 = w.world → wr.failed = w.failed →
    (mr wr).1 = (m w).1 ∧ (mr wr).2.world.1 = (m w).2.world ∧ (mr wr).2.failed = (m w).2.failed

/-! ## Example environments -/

/-- Wire type tags for examples. -/
def demoCodes : Codes where
  ErrorCode := "ERR"
  ResponseCode := "DAP-RES"
  ResponseMessageCode := "DAP-MSG"
  RegisterCode := "DAP-REG"
  UnregisterCode := "DAP-UNR"
  DownloadMessagesCode := "DAP-DWN"
  PublishMessageCode := "DAP-PUB"
  UpdateMessageCode := "DAP-UPD"
  DataCode := "DAP-DAT"
  GetDataCode := "DAP-GET"

/-- An address for examples. -/
def demoAddress (name : String) : Address :=
  ⟨name, "mail.example.com:2048", [1, 0, 1]⟩

/-- A client for examples. -/
def demoClient : Client :=
  ⟨⟨demoAddress "alice"⟩, demoAddress "server"⟩

/-- A toy envelope for examples: the first byte of a frame is its wire type (0 error,
1 response, 2 response-message), the rest is the payload. -/
def demoReconstruct (s : SignedMessage) : Except Err (List Nat × String × Header) :=
  match s.raw with
  | [] => .error (.text "empty message")
  | t :: data =>
    .ok (data,
      if t = 0 then "ERR" else if t = 1 then "DAP-RES" else "DAP-MSG",
      ⟨demoAddress "server", demoAddress "alice", []⟩)

/-- An environment for examples. The server answers a request, and fills a
connection, with the given frames. A frame starting with 255 cannot be decrypted, a
recipient without encryption key cannot be encrypted to, a response payload is
`[code, length, data...]`. -/
def demoEnv (frames : List (List Nat)) : ClientEnv where
  codes := demoCodes
  makeLimit := 2305843009213693951
  RSAToBytes := fun k => k
  HashSHA := fun b => [b.sum % 256, b.length % 256]
  SendMessageAndReceiveWithTimestamp := fun _ _ _ =>
    match frames with
    | [] => .error (.text "connection refused")
    | f :: _ => demoReconstruct ⟨f⟩
  CreateErrorFromBytes := fun d _ => some ⟨d.headD 0, "remote failure"⟩
  CreateResponseFromBytes := fun d _ =>
    match d with
    | code :: length :: data => .ok ⟨code, length, data⟩
    | _ => .error (.text "short response")
  CreateResponseMessageFromBytes := fun d _ => .ok ⟨d⟩
  SignMessage := fun m _ => .ok ⟨m.Components.flatMap (fun x => x.Data)⟩
  UnencryptedMessage := fun sg => .ok ⟨sg.raw⟩
  EncryptWithKey := fun sg addr =>
    if addr.EncryptionKey = [] then .error (.text "no encryption key")
    else .ok ⟨sg.raw.map (fun b => (b + 1) % 256)⟩
  ToBytes := fun e => .ok e.raw
  Decrypt := fun m _ =>
    if m.raw.head? = some 255 then .error (.text "cannot decrypt") else .ok ⟨m.raw⟩
  Verify := fun _ => true
  ReconstructMessageWithTimestamp := demoReconstruct
  ReconstructMessage := demoReconstruct
  ConnectToServer := fun _ =>
    .ok { send := fun _ => none
          frames := fun k =>
            match frames.get? k with
            | some f => .ok ⟨f⟩
            | none => .error (.text "EOF") }

/-- The connection of a server that announces a count and then sends, read after
read, the frame `sub` (or nothing, when there is none). -/
def announcingConn (sub : Option (List Nat)) : Conn where
  send := fun _ => none
  frames := fun k =>
    if k = 0 then .ok ⟨[1]⟩
    else
      match sub with
      | some f => .ok ⟨f⟩
      | none => .error (.text "EOF")

/-- An environment for examples in which the server announces `count` sub-messages
in its header response and then sends the frame `sub`, read after read. -/
def announcingEnv (count : Nat) (sub : Option (List Nat)) : ClientEnv :=
  { demoEnv [] with
    ConnectToServer := fun _ => .ok (announcingConn sub)
    CreateResponseFromBytes := fun _ _ => .ok ⟨0, count, []⟩ }

/-- A mail for examples. -/
def demoMail : Mail :=
  ⟨demoAddress "alice", demoAddress "bob", 1000, [⟨"body", [104, 105]⟩]⟩

/-- A router for examples: every alias resolves. The world is a counter of the calls
made. -/
def demoRouter : RoutingRouter Nat where
  LookupAlias := fun name s => (.ok (demoAddress name), s + 1)

/-- A database and network for examples. The user follows `bob@example.com`, whose
server lists two messages; the alerts are the given ones, and the message of an alert
named `lost` cannot be downloaded; the user wrote one message. A mail fetched later
carries an earlier creation time, and the timestamp of a feed item is the creation
time of its mail. -/
def demoSyncEnv (alerts : List models.Alert) : SyncEnv Nat where
  MailCode := "MAI"
  MessageListCode := "MLI"
  selectSubscriptions := fun uid s => (.ok [⟨uid, "bob@example.com"⟩], s + 1)
  selectAlerts := fun _ since s => (.ok (alerts.filter (fun v => since < v.Timestamp)), s + 1)
  selectMessages := fun author since s =>
    (.ok [⟨"own", "dave@example.com,erin@example.com", author, since + 3, [9]⟩], s + 1)
  SendMessageAndReceiveWithoutTimestamp := fun _ author addr s =>
    (.ok ([s], "MAI", ⟨addr, author.Address, []⟩), s + 1)
  SendMessageAndReceive := fun _ author addr s =>
    (.ok ([2], "MLI", ⟨addr, author.Address, []⟩), s + 1)
  CreateMailFromBytes := fun bytes h => .ok ⟨h.From, h.To, 100 - bytes.sum, [⟨"body", bytes⟩]⟩
  CreateMessageListFromBytes := fun _ _ => .ok ⟨[⟨"m1", ""⟩, ⟨"m2", "mirror.example.com:2048"⟩]⟩
  DownloadMessageFromAlert := fun v s =>
    if v.Name = "lost" then (.error (.text "message not found"), s + 1)
    else (.ok ⟨demoAddress v.From, demoAddress v.To, v.Timestamp, []⟩, s + 1)
  ToDispatch := fun v rcpt s =>
    (.ok ⟨demoAddress v.From, demoAddress rcpt, v.Timestamp, [⟨"body", v.Data⟩]⟩, s + 1)
  CreatePluginMail := fun mail _ pub s => (⟨mail, pub, mail.Created⟩, s)

/-- The identity of the user in the examples. -/
def demoIdentity : Identity :=
  ⟨demoAddress "alice"⟩

/-- The user record of the examples. -/
def demoUser : models.User :=
  ⟨1, "Alice"⟩

/-- The two alerts of the examples; only the first is newer than the cursor 10. -/
def demoAlerts : List models.Alert :=
  [⟨"alice", "carol", "m7", 50⟩, ⟨"alice", "carol", "m8", 7⟩]

/-- What the public pass of the example fetches: the two messages listed by
`bob@example.com`, the second from the location its description names. -/
def demoPublicItems : List MelangeMessage :=
  [⟨⟨demoAddress "bob@example.com", demoAddress "alice", 96, [⟨"body", [4]⟩]⟩, true, 96⟩,
   ⟨⟨⟨"bob@example.com", "mirror.example.com:2048", [1, 0, 1]⟩, demoAddress "alice", 94,
      [⟨"body", [6]⟩]⟩, true, 94⟩]

/-- What the private pass of the example fetches. -/
def demoPrivateItems : List MelangeMessage :=
  [⟨⟨demoAddress "carol", demoAddress "alice", 50, []⟩, false, 50⟩]

/-- What the self pass of the example fetches. -/
def demoSelfItems : List MelangeMessage :=
  [⟨⟨demoAddress "alice", demoAddress "dave@example.com", 13, [⟨"body", [9]⟩]⟩, false, 13⟩]

/-- A database for examples of the mail server: the fingerprint `alice` has one
identity record, of the user of the examples. -/
def demoServerEnv : ServerEnv where
  selectIdentity := fun fp => if fp = "alice" then .ok [⟨1, "alice"⟩] else .ok []
  getUser := fun id => if id = 1 then .ok (some demoUser) else .ok none
  selectMessages := fun _ _ => .ok []
  IdentityToDispatch := fun row => .ok ⟨demoAddress row.Fingerprint⟩
  MessageToDispatch := fun v rcpt =>
    .ok ⟨demoAddress v.From, demoAddress rcpt, v.Timestamp, [⟨"body", v.Data⟩]⟩
  GetAvatar := fun u => "avatars/" ++ u.Name
  now := 1000

/-- A dispatcher for examples, holding the given messages; a message without data
cannot be marshalled. -/
def demoDispatcher (stored : List dispatcher.Message) : dispatcher.Server where
  Key := demoIdentity
  GetIncomingMessagesSince := fun _ _ => .ok stored
  ToDispatch := fun v _ =>
    if v.Data = [] then .error (.text "empty message") else .ok ⟨v.Data⟩
  CreateResponseMessage := fun data _ _ => ⟨data.raw⟩
  CreateAddressFromString := fun x => demoAddress x

/-! # Properties -/

theorem Split_comma_example : strings.Split "a,b,c" "," = ["a", "b", "c"] := by decide
theorem Split_explode_example : strings.Split "abc" "" = ["a", "b", "c"] := by decide
theorem Split_at_by_alias_example : strings.Split "@" "bob@example.com" = ["@"] := by decide
theorem Split_at_by_at_example : strings.Split "@" "@" = ["", ""] := by decide
theorem Split_adjacent_example : strings.Split "a@@b" "@" = ["a", "", "b"] := by decide
theorem hexEncodeToString_example : hexEncodeToString [0, 255, 16, 171] = "00ff10ab" := by decide

/-! ## Properties of `Router.LookupAlias` -/

theorem Index_at_of_ne (sep : List Char) (h0 : sep ≠ []) (h1 : sep ≠ ['@']) :
    strings.Index ['@'] sep = none := by
  cases sep with
  | nil => exact absurd rfl h0
  | cons c rest =>
    cases rest with
    | nil =>
      have hc : c ≠ '@' := fun h => h1 (by rw [h])
      simp [strings.Index, hc]
    | cons d rest => simp [strings.Index]

theorem Split_at_of_ne (alias_ : String) (h : alias_ ≠ "@") :
    strings.Split "@" alias_ = ["@"] := by
  unfold strings.Split
  by_cases h0 : alias_.data = []
  · simp [h0, strings.explode]
  · have h1 : alias_.data ≠ ['@'] := by
      intro hd
      apply h
      cases alias_
      simp_all
    simp [h0, strings.Count, strings.countLoop, strings.splitLoop,
      Index_at_of_ne _ h0 h1]

/-- Every alias other than `"@"` is rejected: the split of `"@"` by the alias has one
element. -/
theorem LookupAlias_rejects (lib : TrackerLib) (a : Router) (alias_ : String)
    (h : alias_ ≠ "@") :
    Router.LookupAlias lib a alias_ = (none, some errNoTracker) := by
  simp [Router.LookupAlias, Split_at_of_ne alias_ h]

/-- A split by a non-empty separator has a first element, so the index `[0]` taken
in the self pass of `Messages` is in range. -/
theorem splitLoop_ne_nil (sep : List Char) (n : Nat) (s : List Char) :
    strings.splitLoop sep n s ≠ [] := by
  cases n with
  | zero => simp [strings.splitLoop]
  | succ n =>
    unfold strings.splitLoop
    cases strings.Index s sep <;> simp

/-- The index `[0]` of `strings.Split(v.To, ",")` is in range for every `v.To`. -/
theorem Split_comma_ne_nil (s : String) : strings.Split s "," ≠ [] := by
  have h : (",".data = []) = False := by decide
  simp only [strings.Split, h, if_false]
  simpa using splitLoop_ne_nil _ _ _

/-- C1: `Router.LookupAlias` evaluated at the well-formed alias `bob@example.com`
fails with the error for a malformed alias, whatever the tracker would answer: the
alias is never forwarded. -/
theorem LookupAlias_wellformed_rejected (lib : TrackerLib) (a : Router) :
    Router.LookupAlias lib a "bob@example.com" = (none, some errNoTracker) :=
  LookupAlias_rejects lib a "bob@example.com" (by decide)

/-- C2, as stated, fails: `Router.LookupAlias` evaluated at the malformed alias `@`
does not return an error of its own: it asks the tracker located from the empty
domain and returns its answer, here an address and a nil error. The only guard of the
method is the number of parts of the split; no part is checked to be non-empty. -/
theorem LookupAlias_at_forwarded :
    (∀ (lib : TrackerLib) (a : Router),
      Router.LookupAlias lib a "@"
        = lib.LookupAlias a.Origin (lib.GetTrackingServerLocationFromURL "") "@") ∧
    Router.LookupAlias demoLib ⟨none⟩ "@" = (some ⟨"@", ":1024", []⟩, none) := by
  constructor
  · intro lib a
    rfl
  · rfl

/-- C2, amended: for every alias that holds no `@` or more than one `@`,
`Router.LookupAlias` returns a nil address and a non-nil error, whatever the tracker
would answer; the element `comp[1]` is read only when the split has two parts. -/
theorem LookupAlias_malformed_rejected (lib : TrackerLib) (a : Router) (alias_ : String)
    (h : alias_.data.count '@' ≠ 1) :
    (Router.LookupAlias lib a alias_).1 = none ∧
    (Router.LookupAlias lib a alias_).2 ≠ none ∧
    Router.LookupAlias lib a alias_ = (none, some errNoTracker) := by
  have hne : alias_ ≠ "@" := by
    intro heq
    subst heq
    exact h (by decide)
  rw [LookupAlias_rejects lib a alias_ hne]
  simp

/-- The witness of the amended C2: an alias with two `@`, and a tracker that knows
every alias. -/
theorem LookupAlias_malformed_rejected_witness :
    (Router.LookupAlias demoLib ⟨none⟩ "a@b@c").1 = none ∧
    (Router.LookupAlias demoLib ⟨none⟩ "a@b@c").2 ≠ none ∧
    Router.LookupAlias demoLib ⟨none⟩ "a@b@c" = (none, some errNoTracker) :=
  LookupAlias_malformed_rejected demoLib ⟨none⟩ "a@b@c" (by decide)

theorem LookupAlias_no_at_example :
    Router.LookupAlias demoLib ⟨none⟩ "bob" = (none, some errNoTracker) ∧
    Router.LookupAlias demoLib ⟨none⟩ "" = (none, some errNoTracker) := by
  constructor <;> rfl

/-! ## Properties of `InitRouter` -/

/-- C10: `InitRouter` keeps a `ServerKey`, a `RegistrationRouter` and a `LookupRouter`
that are already set, calls `identity.CreateIdentity` only when `ServerKey` is unset,
and, run on the globals left by a call after which all three are set, changes nothing
and creates no identity. -/
theorem InitRouter_idempotent (lib : TrackerLib) (createIdentity : Nat → Option Identity)
    (g : Globals) :
    (∀ k, g.ServerKey = some k → (InitRouter lib createIdentity g).ServerKey = some k) ∧
    (∀ x, g.RegistrationRouter = some x →
      (InitRouter lib createIdentity g).RegistrationRouter = some x) ∧
    (∀ x, g.LookupRouter = some x → (InitRouter lib createIdentity g).LookupRouter = some x) ∧
    ((InitRouter lib createIdentity g).created ≠ g.created → g.ServerKey = none) ∧
    (∀ (lib2 : TrackerLib) (createIdentity2 : Nat → Option Identity),
      (InitRouter lib createIdentity g).ServerKey ≠ none →
      (InitRouter lib createIdentity g).RegistrationRouter ≠ none →
      (InitRouter lib createIdentity g).LookupRouter ≠ none →
      InitRouter lib2 createIdentity2 (InitRouter lib createIdentity g)
        = InitRouter lib createIdentity g) := by
  obtain ⟨sk, rr, lr, n⟩ := g
  refine ⟨?_, ?_, ?_, ?_, ?_⟩
  · intro k hk
    cases rr <;> cases lr <;> simp_all [InitRouter]
  · intro x hx
    cases sk <;> cases lr <;> simp_all [InitRouter]
  · intro x hx
    cases sk <;> cases rr <;> simp_all [InitRouter]
  · intro h
    cases sk with
    | none => rfl
    | some k => cases rr <;> cases lr <;> simp_all [InitRouter]
  · intro lib2 ci2 h1 h2 h3
    generalize InitRouter lib createIdentity ⟨sk, rr, lr, n⟩ = g1 at h1 h2 h3
    simp [InitRouter, h1, h2, h3]

/-- A first call on unset globals sets all three and creates one identity; a second
call changes nothing. -/
theorem InitRouter_twice_example :
    InitRouter demoLib (fun k => some ⟨⟨toString k, "", []⟩⟩) ⟨none, none, none, 0⟩
      = ⟨some ⟨⟨"0", "", []⟩⟩,
         some (.tracker "airdispat.ch:1024" (some ⟨⟨"0", "", []⟩⟩)),
         some (.lookup ⟨some ⟨⟨"0", "", []⟩⟩⟩), 1⟩ ∧
    InitRouter demoLib (fun k => some ⟨⟨toString k, "", []⟩⟩)
        (InitRouter demoLib (fun k => some ⟨⟨toString k, "", []⟩⟩) ⟨none, none, none, 0⟩)
      = InitRouter demoLib (fun k => some ⟨⟨toString k, "", []⟩⟩) ⟨none, none, none, 0⟩ := by
  constructor <;> rfl

/-! ## Properties of the protocol client -/

theorem DownloadMessages_two_example : (demoClient.DownloadMessages (demoEnv [[1, 0, 2], [2, 7], [2, 8]]) 0 false).1
    = .returned ([some ⟨[7]⟩, some ⟨[8]⟩], none) := by decide
theorem DownloadMessages_reads_example : (demoClient.DownloadMessages (demoEnv [[1, 0, 2], [2, 7], [2, 8]]) 0 false).2.reads
    = 3 := by decide
theorem DownloadMessages_zero_example : (demoClient.DownloadMessages (demoEnv [[1, 0, 0], [2, 7]]) 0 false)
    = (.returned ([], none),
        ⟨true, [demoClient.downloadRequest (demoEnv []) 0 false], 1, true⟩) := by
  decide
theorem DownloadMessages_mismatch_example : (demoClient.DownloadMessages (demoEnv [[1, 0, 3], [2, 7], [1, 8], [2, 9]]) 0 false).1
    = .returned ([], some (.text "Unexpected message type.")) := by decide
theorem PublishMessage_hash_example : (demoClient.PublishMessage (demoEnv [[1, 0, 0]]) demoMail [] "" true).1
    = ("d102", none) := by decide

/-- The loop stops with an error and a nil slice as soon as one of the sub-messages
it has still to read fails. -/
theorem readMessages_fails (env : ClientEnv) (c : Client) (conn : Conn) (n : Nat) :
    ∀ (i reads : Nat) (messages : List (Option ResponseMessage)) (j : Nat) (e : Err),
      j < n → c.readResponseMessage env conn (reads + j) = .error e →
      (Client.readMessages env c conn n i reads messages).1.1 = [] ∧
      (Client.readMessages env c conn n i reads messages).1.2 ≠ none := by
  induction n with
  | zero => intro i reads messages j e hj; omega
  | succ n ih =>
    intro i reads messages j e hj he
    unfold Client.readMessages
    cases hr : c.readResponseMessage env conn reads with
    | error err => simp
    | ok rspMsg =>
      cases j with
      | zero => simp [hr] at he
      | succ j =>
        simp only
        apply ih (i + 1) (reads + 1) _ j e (by omega)
        rw [← he]
        congr 1
        omega

/-- The loop, when every sub-message it has still to read is valid, fills the rest
of the slice in order and makes one read per sub-message. -/
theorem readMessages_succeeds (env : ClientEnv) (c : Client) (conn : Conn)
    (m : Nat → ResponseMessage) (n : Nat) :
    ∀ (i : Nat),
      (∀ j, j < i + n → c.readResponseMessage env conn (j + 1) = .ok (m j)) →
      Client.readMessages env c conn n i (i + 1)
          ((List.range i).map (fun j => some (m j)) ++ List.replicate n none)
        = (((List.range (i + n)).map (fun j => some (m j)), none), i + n + 1) := by
  induction n with
  | zero => intro i _; simp [Client.readMessages]
  | succ n ih =>
    intro i h
    unfold Client.readMessages
    rw [h i (by omega)]
    simp only
    have hset : ((List.range i).map (fun j => some (m j)) ++ List.replicate (n + 1) none).set i
          (some (m i))
        = (List.range (i + 1)).map (fun j => some (m j)) ++ List.replicate n none := by
      rw [List.set_append_right _ _ (by simp)]
      simp [List.replicate_succ, List.range_succ]
    rw [hset, ih (i + 1) (fun j hj => h j (by omega))]
    simp only [Prod.mk.injEq, and_true, true_and]
    constructor
    · congr 2
      omega
    · omega

/-- A header response that fails one of its steps makes the header step of
`Client.DownloadMessages` fail. -/
theorem readResponse_of_fails (env : ClientEnv) (c : Client) (conn : Conn)
    (h : HeaderFails env c conn) : ∃ e, c.readResponse env conn 0 = .error e := by
  rcases h with ⟨e, h⟩ | ⟨f, e, h, hd⟩ | ⟨f, sg, h, hd, hv⟩ | ⟨f, sg, e, h, hd, hv, hr⟩ |
    ⟨f, sg, data, typ, head, h, hd, hv, hr, ht⟩ | ⟨f, sg, data, head, e, h, hd, hv, hr, hx⟩
  · exact ⟨e, by simp [Client.readResponse, h]⟩
  · exact ⟨e, by simp [Client.readResponse, Client.decryptAndVerify, h, hd]⟩
  · exact ⟨.text "Unable to Verify Message", by
      simp [Client.readResponse, Client.decryptAndVerify, h, hd, hv]⟩
  · exact ⟨e, by simp [Client.readResponse, Client.decryptAndVerify, h, hd, hv, hr]⟩
  · exact ⟨.text "Unexpected message type.", by
      simp [Client.readResponse, Client.decryptAndVerify, h, hd, hv, hr, ht]⟩
  · exact ⟨e, by simp [Client.readResponse, Client.decryptAndVerify, h, hd, hv, hr, hx]⟩

/-- A valid header response is what the header step of `Client.DownloadMessages`
yields. -/
theorem readResponse_of_is (env : ClientEnv) (c : Client) (conn : Conn) (response : Response)
    (h : HeaderIs env c conn response) : c.readResponse env conn 0 = .ok response := by
  obtain ⟨f, sg, data, head, h, hd, hv, hr, hx⟩ := h
  simp [Client.readResponse, Client.decryptAndVerify, h, hd, hv, hr, hx]

/-- A sub-message that fails one of its steps makes the body of the loop of
`Client.DownloadMessages` fail. -/
theorem readResponseMessage_of_fails (env : ClientEnv) (c : Client) (conn : Conn) (k : Nat)
    (h : SubMessageFails env c conn k) :
    ∃ e, c.readResponseMessage env conn (k + 1) = .error e := by
  rcases h with ⟨e, h⟩ | ⟨f, e, h, hd⟩ | ⟨f, sg, h, hd, hv⟩ | ⟨f, sg, e, h, hd, hv, hr⟩ |
    ⟨f, sg, data, typ, head, h, hd, hv, hr, ht⟩ | ⟨f, sg, data, head, e, h, hd, hv, hr, hx⟩
  · exact ⟨e, by simp [Client.readResponseMessage, h]⟩
  · exact ⟨e, by simp [Client.readResponseMessage, Client.decryptAndVerify, h, hd]⟩
  · exact ⟨.text "Unable to Verify Message", by
      simp [Client.readResponseMessage, Client.decryptAndVerify, h, hd, hv]⟩
  · exact ⟨e, by simp [Client.readResponseMessage, Client.decryptAndVerify, h, hd, hv, hr]⟩
  · exact ⟨.text "Unexpected message type.", by
      simp [Client.readResponseMessage, Client.decryptAndVerify, h, hd, hv, hr, ht]⟩
  · exact ⟨e, by
      simp [Client.readResponseMessage, Client.decryptAndVerify, h, hd, hv, hr, hx]⟩

/-- A valid sub-message is what the body of the loop of `Client.DownloadMessages`
yields. -/
theorem readResponseMessage_of_is (env : ClientEnv) (c : Client) (conn : Conn) (k : Nat)
    (m : ResponseMessage) (h : SubMessageIs env c conn k m) :
    c.readResponseMessage env conn (k + 1) = .ok m := by
  obtain ⟨f, sg, data, head, h, hd, hv, hr, hx⟩ := h
  simp [Client.readResponseMessage, Client.decryptAndVerify, h, hd, hv, hr, hx]

/-- C3, as stated, fails: the server announces `2^62` sub-messages in a valid header
response and the first sub-message cannot be read; `Client.DownloadMessages` does not
return an error, it panics in `make`, which accepts no such length. -/
theorem DownloadMessages_no_partial_counterexample :
    HeaderIs (announcingEnv 4611686018427387904 none) demoClient (announcingConn none)
      ⟨0, 4611686018427387904, []⟩ ∧
    SubMessageFails (announcingEnv 4611686018427387904 none) demoClient (announcingConn none)
      0 ∧
    (demoClient.DownloadMessages (announcingEnv 4611686018427387904 none) 0 false).1
      = .panicked "makeslice: len out of range" := by
  refine ⟨⟨⟨[1]⟩, ⟨[1]⟩, [], ⟨demoAddress "server", demoAddress "alice", []⟩,
    rfl, rfl, rfl, rfl, rfl⟩, Or.inl ⟨.text "EOF", rfl⟩, ?_⟩
  decide

/-- C3, amended: on an opened connection, when the header response fails to be read,
decrypted, verified, type-checked or decoded, or when it is valid and announces a
count `N ≥ 1` that `make` accepts and one of the sub-messages `k < N` fails one of
those steps, `Client.DownloadMessages` returns a nil slice and a non-nil error:
nothing read before the failure is returned. -/
theorem DownloadMessages_no_partial (env : ClientEnv) (c : Client) (since : Nat)
    (context : Bool) (conn : Conn)
    (hconn : env.ConnectToServer c.Server.Location = .ok conn)
    (h : HeaderFails env c conn ∨
      (∃ response k, HeaderIs env c conn response ∧ 1 ≤ response.Length ∧
        response.Length ≤ env.makeLimit ∧ k < response.Length ∧
        SubMessageFails env c conn k)) :
    ∃ e, (c.DownloadMessages env since context).1 = .returned ([], some e) := by
  unfold Client.DownloadMessages
  simp only [hconn]
  cases hs : conn.send (c.downloadRequest env since context) with
  | some err => exact ⟨err, rfl⟩
  | none =>
    rcases h with hf | ⟨response, k, hr, hN, hlim, hk, hf⟩
    · obtain ⟨e, he⟩ := readResponse_of_fails env c conn hf
      exact ⟨e, by simp [he]⟩
    · obtain ⟨e, he⟩ := readResponseMessage_of_fails env c conn k hf
      have hne : response.Length ≠ 0 := by omega
      have hlim2 : ¬ env.makeLimit < response.Length := by omega
      simp only [readResponse_of_is env c conn response hr, hne, hlim2, if_false]
      have hfail := readMessages_fails env c conn response.Length 0 1
        (List.replicate response.Length none) k e hk (by rw [Nat.add_comm]; exact he)
      rcases hres : Client.readMessages env c conn response.Length 0 1
        (List.replicate response.Length none) with ⟨⟨msgs, err⟩, reads⟩
      rw [hres] at hfail
      obtain ⟨h1, h2⟩ := hfail
      simp only at h1 h2
      cases err with
      | none => exact absurd rfl h2
      | some e2 => exact ⟨e2, by simp [h1]⟩

/-- The witness of the amended C3: the server announces three sub-messages and the
second one has the wire type of a response, not of a response-message. -/
theorem DownloadMessages_no_partial_witness :
    ∃ e, (demoClient.DownloadMessages (demoEnv [[1, 0, 3], [2, 7], [1, 8], [2, 9]]) 0 false).1
      = .returned ([], some e) :=
  DownloadMessages_no_partial (demoEnv [[1, 0, 3], [2, 7], [1, 8], [2, 9]]) demoClient 0 false
    { send := fun _ => none
      frames := fun k =>
        match [[1, 0, 3], [2, 7], [1, 8], [2, 9]].get? k with
        | some f => .ok ⟨f⟩
        | none => .error (.text "EOF") }
    rfl
    (Or.inr ⟨⟨0, 3, []⟩, 1,
      ⟨⟨[1, 0, 3]⟩, ⟨[1, 0, 3]⟩, [0, 3], ⟨demoAddress "server", demoAddress "alice", []⟩,
        rfl, rfl, rfl, rfl, rfl⟩,
      by decide, by decide, by decide,
      Or.inr (Or.inr (Or.inr (Or.inr (Or.inl
        ⟨⟨[1, 8]⟩, ⟨[1, 8]⟩, [8], "DAP-RES", ⟨demoAddress "server", demoAddress "alice", []⟩,
          rfl, rfl, rfl, rfl, by decide⟩))))⟩)

/-- C4, as stated, fails: the request is sent, the server announces `2^62`
sub-messages in a valid header response and every sub-message it sends is valid;
`Client.DownloadMessages` returns no list, it panics in `make`, which accepts no such
length. -/
theorem DownloadMessages_complete_counterexample :
    (announcingConn (some [2, 7])).send
      (demoClient.downloadRequest (announcingEnv 4611686018427387904 (some [2, 7])) 0 false)
      = none ∧
    HeaderIs (announcingEnv 4611686018427387904 (some [2, 7])) demoClient
      (announcingConn (some [2, 7])) ⟨0, 4611686018427387904, []⟩ ∧
    (∀ i, SubMessageIs (announcingEnv 4611686018427387904 (some [2, 7])) demoClient
      (announcingConn (some [2, 7])) i ⟨[7]⟩) ∧
    (demoClient.DownloadMessages (announcingEnv 4611686018427387904 (some [2, 7])) 0 false).1
      = .panicked "makeslice: len out of range" := by
  refine ⟨rfl, ⟨⟨[1]⟩, ⟨[1]⟩, [], ⟨demoAddress "server", demoAddress "alice", []⟩,
    rfl, rfl, rfl, rfl, rfl⟩, ?_, ?_⟩
  · intro i
    exact ⟨⟨[2, 7]⟩, ⟨[2, 7]⟩, [7], ⟨demoAddress "server", demoAddress "alice", []⟩,
      by simp [announcingConn], rfl, rfl, rfl, rfl⟩
  · decide

/-- C4, amended: on an opened connection on which the request is sent, when the
header response is valid and announces a count `N` that `make` accepts, and each of
the `N` sub-messages is valid, `Client.DownloadMessages` returns, with a nil error,
the slice of length `N` whose `i`-th element is the decoding of the `i`-th
sub-message read, having made `N` reads after the one of the header; for `N = 0` the
slice is empty and the header was the only read. -/
theorem DownloadMessages_complete (env : ClientEnv) (c : Client) (since : Nat)
    (context : Bool) (conn : Conn) (response : Response) (m : Nat → ResponseMessage)
    (hconn : env.ConnectToServer c.Server.Location = .ok conn)
    (hsend : conn.send (c.downloadRequest env since context) = none)
    (hhead : HeaderIs env c conn response)
    (hlimit : response.Length ≤ env.makeLimit)
    (hsub : ∀ i, i < response.Length → SubMessageIs env c conn i (m i)) :
    (c.DownloadMessages env since context).1
      = .returned ((List.range response.Length).map (fun i => some (m i)), none) ∧
    ((List.range response.Length).map (fun i => some (m i))).length = response.Length ∧
    (c.DownloadMessages env since context).2.reads = 1 + response.Length ∧
    (response.Length = 0 →
      (c.DownloadMessages env since context).1 = .returned ([], none) ∧
      (c.DownloadMessages env since context).2.reads = 1) := by
  have key : c.DownloadMessages env since context
      = (.returned ((List.range response.Length).map (fun i => some (m i)), none),
          ⟨true, [c.downloadRequest env since context], 1 + response.Length, true⟩) := by
    unfold Client.DownloadMessages
    simp only [hconn, hsend, readResponse_of_is env c conn response hhead]
    by_cases hN : response.Length = 0
    · simp [hN]
    · have hlim2 : ¬ env.makeLimit < response.Length := by omega
      simp only [hN, hlim2, if_false]
      have := readMessages_succeeds env c conn m response.Length 0
        (fun j hj => readResponseMessage_of_is env c conn j (m j) (hsub j (by omega)))
      simp only [List.range_zero, List.map_nil, List.nil_append, Nat.zero_add] at this
      rw [this]
      simp [Nat.add_comm]
  rw [key]
  refine ⟨rfl, by simp, rfl, ?_⟩
  intro hN
  simp [hN]

/-- The witness of the amended C4: the server announces two sub-messages and sends
them. -/
theorem DownloadMessages_complete_witness :
    (demoClient.DownloadMessages (demoEnv [[1, 0, 2], [2, 7], [2, 8]]) 0 false).1
      = .returned ((List.range 2).map (fun i => some (⟨[7 + i]⟩ : ResponseMessage)), none) ∧
    ((List.range 2).map (fun i => some (⟨[7 + i]⟩ : ResponseMessage))).length = 2 ∧
    (demoClient.DownloadMessages (demoEnv [[1, 0, 2], [2, 7], [2, 8]]) 0 false).2.reads = 1 + 2 ∧
    ((2 : Nat) = 0 →
      (demoClient.DownloadMessages (demoEnv [[1, 0, 2], [2, 7], [2, 8]]) 0 false).1
        = .returned ([], none) ∧
      (demoClient.DownloadMessages (demoEnv [[1, 0, 2], [2, 7], [2, 8]]) 0 false).2.reads = 1) :=
  DownloadMessages_complete (demoEnv [[1, 0, 2], [2, 7], [2, 8]]) demoClient 0 false
    { send := fun _ => none
      frames := fun k =>
        match [[1, 0, 2], [2, 7], [2, 8]].get? k with
        | some f => .ok ⟨f⟩
        | none => .error (.text "EOF") }
    ⟨0, 2, []⟩ (fun i => ⟨[7 + i]⟩) rfl rfl
    ⟨⟨[1, 0, 2]⟩, ⟨[1, 0, 2]⟩, [0, 2], ⟨demoAddress "server", demoAddress "alice", []⟩,
      rfl, rfl, rfl, rfl, rfl⟩
    (by decide)
    (by
      intro i hi
      have hi2 : i < 2 := hi
      interval_cases i
      · exact ⟨⟨[2, 7]⟩, ⟨[2, 7]⟩, [7], ⟨demoAddress "server", demoAddress "alice", []⟩,
          rfl, rfl, rfl, rfl, rfl⟩
      · exact ⟨⟨[2, 8]⟩, ⟨[2, 8]⟩, [8], ⟨demoAddress "server", demoAddress "alice", []⟩,
          rfl, rfl, rfl, rfl, rfl⟩)

/-- Each of the five steps on a sub-message — read, decrypt, verify, wire type,
decode — makes `Client.readResponseMessage` fail when it fails. -/
theorem readResponseMessage_step_failures (env : ClientEnv) (c : Client) (conn : Conn)
    (k : Nat) :
    (∀ e, conn.frames k = .error e → c.readResponseMessage env conn k = .error e) ∧
    (∀ f e, conn.frames k = .ok f → env.Decrypt f c.Key = .error e →
      c.readResponseMessage env conn k = .error e) ∧
    (∀ f sg, conn.frames k = .ok f → env.Decrypt f c.Key = .ok sg → env.Verify sg = false →
      c.readResponseMessage env conn k = .error (.text "Unable to Verify Message")) ∧
    (∀ f data typ head, conn.frames k = .ok f →
      c.decryptAndVerify env f true = .ok (data, typ, head) →
      typ ≠ env.codes.ResponseMessageCode →
      c.readResponseMessage env conn k = .error (.text "Unexpected message type.")) ∧
    (∀ f data head e, conn.frames k = .ok f →
      c.decryptAndVerify env f true = .ok (data, env.codes.ResponseMessageCode, head) →
      env.CreateResponseMessageFromBytes data head = .error e →
      c.readResponseMessage env conn k = .error e) := by
  refine ⟨?_, ?_, ?_, ?_, ?_⟩
  · intro e h
    simp [Client.readResponseMessage, h]
  · intro f e h hd
    simp [Client.readResponseMessage, Client.decryptAndVerify, h, hd]
  · intro f sg h hd hv
    simp [Client.readResponseMessage, Client.decryptAndVerify, h, hd, hv]
  · intro f data typ head h hd ht
    simp [Client.readResponseMessage, h, hd, ht]
  · intro f data head e h hd he
    simp [Client.readResponseMessage, h, hd, he]

/-- C5: a reply whose wire type is the error code, with payload `[7]`. Received by
`Client.sendAndGetResponse` it becomes the remote error decoded from the payload;
received by `Client.DownloadMessages` as the header response, or as a sub-message,
it becomes the generic error "Unexpected message type.", because that method never
calls `Client.checkForError`. -/
theorem DownloadMessages_drops_remote_error :
    demoClient.sendAndGetResponse (demoEnv [[0, 7]])
        (demoClient.downloadRequest (demoEnv [[0, 7]]) 0 false)
      = .error (.remote ⟨7, "remote failure"⟩) ∧
    (demoClient.DownloadMessages (demoEnv [[0, 7]]) 0 false).1
      = .returned ([], some (.text "Unexpected message type.")) ∧
    (demoClient.DownloadMessages (demoEnv [[1, 0, 2], [2, 5], [0, 7]]) 0 false).1
      = .returned ([], some (.text "Unexpected message type.")) := by
  refine ⟨rfl, ?_, ?_⟩ <;> decide

/-- In the simple request/response operations an error payload takes precedence: a
reply of the error wire type whose payload decodes to a remote error makes
`Client.sendAndGetResponse` return that error. -/
theorem sendAndGetResponse_remote_error (env : ClientEnv) (c : Client) (msg : RawMessage)
    (data : List Nat) (head : Header) (adErr : AdError)
    (hreply : env.SendMessageAndReceiveWithTimestamp msg c.Key c.Server
      = .ok (data, env.codes.ErrorCode, head))
    (hdec : env.CreateErrorFromBytes data head = some adErr) :
    c.sendAndGetResponse env msg = .error (.remote adErr) := by
  simp [Client.sendAndGetResponse, Client.checkForError, hreply, hdec]

/-- C6: when signing and encryption yield the bytes `b`, `Client.PublishMessage`
called with an empty name returns the hex encoding of the hash of `b`, called with
another name returns that name; the one request it sends carries the returned name
and `b` as its data; and a publish by any client that yields the same bytes under the
same hash function is given the same name. -/
theorem PublishMessage_name (env : ClientEnv) (c : Client) (enc : Mail)
    («to» : List Address) (name : String) (alert_ : Bool) (b : List Nat)
    (h : c.signAndEncrypt env enc «to» = .ok b) :
    (name = "" →
      (c.PublishMessage env enc «to» name alert_).1.1 = hexEncodeToString (env.HashSHA b)) ∧
    (name ≠ "" → (c.PublishMessage env enc «to» name alert_).1.1 = name) ∧
    (∃ msg toAddrs, (c.PublishMessage env enc «to» name alert_).2 = [msg] ∧
      msg.Message = .PublishMessage toAddrs
        (c.PublishMessage env enc «to» name alert_).1.1 alert_ b) ∧
    (∀ (env2 : ClientEnv) (c2 : Client) (enc2 : Mail) (to2 : List Address) (alert2 : Bool),
      env2.HashSHA = env.HashSHA → c2.signAndEncrypt env2 enc2 to2 = .ok b →
      (c2.PublishMessage env2 enc2 to2 "" alert2).1.1
        = (c.PublishMessage env enc «to» "" alert_).1.1) := by
  refine ⟨?_, ?_, ?_, ?_⟩
  · intro hn
    simp [Client.PublishMessage, h, hn]
  · intro hn
    simp [Client.PublishMessage, h, hn]
  · simp [Client.PublishMessage, h]
  · intro env2 c2 enc2 to2 alert2 hh h2
    simp [Client.PublishMessage, h, h2, hh]

/-- The witness of C6: a broadcast mail with body bytes 104, 105. -/
theorem PublishMessage_name_witness :
    (("" : String) = "" →
      (demoClient.PublishMessage (demoEnv [[1, 0, 0]]) demoMail [] "" true).1.1
        = hexEncodeToString ((demoEnv [[1, 0, 0]]).HashSHA [104, 105])) ∧
    (("" : String) ≠ "" →
      (demoClient.PublishMessage (demoEnv [[1, 0, 0]]) demoMail [] "" true).1.1 = "") ∧
    (∃ msg toAddrs, (demoClient.PublishMessage (demoEnv [[1, 0, 0]]) demoMail [] "" true).2
        = [msg] ∧
      msg.Message = .PublishMessage toAddrs
        (demoClient.PublishMessage (demoEnv [[1, 0, 0]]) demoMail [] "" true).1.1 true
        [104, 105]) ∧
    (∀ (env2 : ClientEnv) (c2 : Client) (enc2 : Mail) (to2 : List Address) (alert2 : Bool),
      env2.HashSHA = (demoEnv [[1, 0, 0]]).HashSHA →
      c2.signAndEncrypt env2 enc2 to2 = .ok [104, 105] →
      (c2.PublishMessage env2 enc2 to2 "" alert2).1.1
        = (demoClient.PublishMessage (demoEnv [[1, 0, 0]]) demoMail [] "" true).1.1) :=
  PublishMessage_name (demoEnv [[1, 0, 0]]) demoClient demoMail [] "" true [104, 105] rfl

theorem PublishMessage_named_example : (demoClient.PublishMessage (demoEnv [[1, 0, 0]]) demoMail [] "m1" true).1
    = ("m1", none) := by decide

/-- C7, as stated, fails: a mail addressed to a recipient without encryption key
cannot be encrypted, and `Client.UpdateMessage` called with an empty name then returns
the error of the encryption, not the missing-name error. -/
theorem UpdateMessage_empty_name_counterexample :
    ¬ (∀ (env : ClientEnv) (c : Client) (enc : Mail) («to» : List Address),
        (c.UpdateMessage env enc «to» "").1
          = some (.text "A named message to update is required.")) := by
  intro h
  have h1 := h (demoEnv []) demoClient demoMail [⟨"bob", "", []⟩]
  revert h1
  decide

/-- C7, amended: `Client.UpdateMessage` called with an empty name sends no request
and returns an error: the missing-name error when signing and encryption succeed,
the error of signing or encryption otherwise. -/
theorem UpdateMessage_empty_name (env : ClientEnv) (c : Client) (enc : Mail)
    («to» : List Address) :
    (c.UpdateMessage env enc «to» "").2 = [] ∧
    (c.UpdateMessage env enc «to» "").1 ≠ none ∧
    (∀ b, c.signAndEncrypt env enc «to» = .ok b →
      (c.UpdateMessage env enc «to» "").1
        = some (.text "A named message to update is required.")) ∧
    (∀ e, c.signAndEncrypt env enc «to» = .error e →
      (c.UpdateMessage env enc «to» "").1 = some e) := by
  cases h : c.signAndEncrypt env enc «to» with
  | error e => simp [Client.UpdateMessage, h]
  | ok b => simp [Client.UpdateMessage, h]

theorem UpdateMessage_missing_name_example : demoClient.UpdateMessage (demoEnv []) demoMail [] ""
    = (some (.text "A named message to update is required."), []) := by decide
theorem UpdateMessage_encryption_error_example : demoClient.UpdateMessage (demoEnv []) demoMail [⟨"bob", "", []⟩] ""
    = (some (.text "no encryption key"), []) := by decide

/-! ## Properties of `sort.Sort` with `MessageList.Less` -/

theorem insertionStep_perm {α : Type} (less : α → α → Bool) (x : α) (done : List α) :
    (insertionStep less x done).Perm (x :: done) := by
  induction done with
  | nil => simp [insertionStep]
  | cons y ys ih =>
    unfold insertionStep
    split
    · exact (List.Perm.cons y ih).trans (List.Perm.swap x y ys)
    · exact List.Perm.refl _

theorem foldl_insertionStep_perm {α : Type} (less : α → α → Bool) (data : List α) :
    ∀ done : List α,
      (data.foldl (fun done x => insertionStep less x done) done).Perm (data ++ done) := by
  induction data with
  | nil => intro done; simp
  | cons x xs ih =>
    intro done
    simp only [List.foldl_cons, List.cons_append]
    refine (ih _).trans ?_
    refine (List.Perm.append_left xs (insertionStep_perm less x done)).trans ?_
    exact List.perm_middle

/-- The result of `sort.Sort` holds the elements of its argument, each as often. -/
theorem sortSort_perm {α : Type} (less : α → α → Bool) (data : List α) :
    (sortSort less data).Perm data := by
  unfold sortSort
  refine (List.reverse_perm _).trans ?_
  simpa using foldl_insertionStep_perm less data []

theorem insertionStep_descending (x : MelangeMessage) (done : List MelangeMessage)
    (h : done.Pairwise (fun a b => b.Timestamp ≤ a.Timestamp)) :
    (insertionStep MessageList.Less x done).Pairwise (fun a b => b.Timestamp ≤ a.Timestamp) := by
  induction done with
  | nil => simp [insertionStep]
  | cons y ys ih =>
    rw [List.pairwise_cons] at h
    unfold insertionStep
    split
    · rename_i hlt
      simp only [MessageList.Less, decide_eq_true_eq] at hlt
      rw [List.pairwise_cons]
      refine ⟨?_, ih h.2⟩
      intro z hz
      have hz2 := (List.Perm.mem_iff (insertionStep_perm MessageList.Less x ys)).1 hz
      rcases List.mem_cons.1 hz2 with hzx | hzy
      · subst hzx; omega
      · exact h.1 z hzy
    · rename_i hlt
      simp only [MessageList.Less, decide_eq_true_eq] at hlt
      rw [List.pairwise_cons, List.pairwise_cons]
      refine ⟨?_, h⟩
      intro z hz
      rcases List.mem_cons.1 hz with hz | hz
      · subst hz; omega
      · have := h.1 z hz
        omega

theorem foldl_insertionStep_descending (data : List MelangeMessage) :
    ∀ done : List MelangeMessage,
      done.Pairwise (fun a b => b.Timestamp ≤ a.Timestamp) →
      (data.foldl (fun done x => insertionStep MessageList.Less x done) done).Pairwise
        (fun a b => b.Timestamp ≤ a.Timestamp) := by
  induction data with
  | nil => intro done h; simpa using h
  | cons x xs ih =>
    intro done h
    simp only [List.foldl_cons]
    exact ih _ (insertionStep_descending x done h)

/-- The result of `sort.Sort` with `MessageList.Less` is in non-decreasing order of
timestamp. -/
theorem sortSort_sorted (data : List MelangeMessage) :
    (sortSort MessageList.Less data).Pairwise (fun a b => a.Timestamp ≤ b.Timestamp) := by
  unfold sortSort
  rw [List.pairwise_reverse]
  exact foldl_insertionStep_descending data [] List.Pairwise.nil

/-! ## Properties of `Messages` -/

theorem sync_bind_apply {σ α β : Type} (m : Sync σ α) (f : α → Sync σ β) (w : Run σ) :
    (m >>= f) w =
      match m w with
      | (.ok a, w1) => f a w1
      | (.error e, w1) => (.error e, w1) := rfl

theorem appends_prefix {σ α : Type} (m : Sync σ α)
    (F : α → List MelangeMessage → Sync σ (List MelangeMessage))
    (hF : ∀ a, Sync.Appends (F a)) :
    Sync.Appends (fun out => m >>= fun a => F a out) := by
  intro out w
  simp only [sync_bind_apply]
  rcases hm : m w with ⟨r, w1⟩
  cases r with
  | error e => rfl
  | ok a => exact hF a out w1

theorem appends_comp {σ : Type} (F G : List MelangeMessage → Sync σ (List MelangeMessage))
    (hF : Sync.Appends F) (hG : Sync.Appends G) :
    Sync.Appends (fun out => F out >>= G) := by
  intro out w
  simp only [sync_bind_apply]
  rw [hF out w]
  rcases hm : F [] w with ⟨r, w1⟩
  cases r with
  | error e => rfl
  | ok items =>
    simp only
    rw [hG (out ++ items) w1, hG items w1]
    rcases hg : G [] w1 with ⟨r2, w2⟩
    cases r2 with
    | error e => rfl
    | ok items2 => simp [List.append_assoc]

theorem appends_shift {σ : Type} (F : List MelangeMessage → Sync σ (List MelangeMessage))
    (l : List MelangeMessage) (hF : Sync.Appends F) :
    Sync.Appends (fun out => F (out ++ l)) := by
  intro out w
  simp only [List.nil_append]
  rw [hF (out ++ l) w, hF l w]
  rcases hg : F [] w with ⟨r, w1⟩
  cases r with
  | error e => rfl
  | ok items => simp [List.append_assoc]

theorem fetchListed_appends {σ : Type} (env : SyncEnv σ) (r : RoutingRouter σ)
    («from» : Identity) (address : String) (l : List server.MessageDescription) :
    Sync.Appends (fetchListed env r «from» address l) := by
  induction l with
  | nil => intro out w; simp [fetchListed, Sync.pure]
  | cons txn rest ih =>
    exact appends_prefix _ _ (fun rmsg => appends_prefix _ _ (fun item =>
      appends_shift _ [item] ih))

theorem fetchSubscribed_appends {σ : Type} (env : SyncEnv σ) (r : RoutingRouter σ)
    («from» : Identity) (since : Int) (l : List models.UserSubscription) :
    Sync.Appends (fetchSubscribed env r «from» since l) := by
  induction l with
  | nil => intro out w; simp [fetchSubscribed, Sync.pure]
  | cons v rest ih =>
    exact appends_prefix _ _ (fun msg =>
      appends_comp _ _ (fetchListed_appends env r «from» v.Address msg.Content) ih)

theorem publicPass_appends {σ : Type} (env : SyncEnv σ) (r : RoutingRouter σ)
    («from» : Identity) (fromUser : models.User) (since : Int) :
    Sync.Appends (publicPass env r «from» fromUser since) :=
  appends_prefix _ _ (fun s => fetchSubscribed_appends env r «from» since s)

theorem fetchAlerted_appends {σ : Type} (env : SyncEnv σ) («from» : Identity)
    (l : List models.Alert) : Sync.Appends (fetchAlerted env «from» l) := by
  induction l with
  | nil => intro out w; simp [fetchAlerted, Sync.pure]
  | cons v rest ih =>
    exact appends_prefix _ _ (fun msg => appends_prefix _ _ (fun item =>
      appends_shift _ [item] ih))

theorem privatePass_appends {σ : Type} (env : SyncEnv σ) («from» : Identity) (since : Int) :
    Sync.Appends (privatePass env «from» since) :=
  appends_prefix _ _ (fun ale => fetchAlerted_appends env «from» ale)

theorem fetchOwn_appends {σ : Type} (env : SyncEnv σ) («from» : Identity)
    (l : List models.Message) : Sync.Appends (fetchOwn env «from» l) := by
  induction l with
  | nil => intro out w; simp [fetchOwn, Sync.pure]
  | cons v rest ih =>
    exact appends_prefix _ _ (fun msg => appends_prefix _ _ (fun item =>
      appends_shift _ [item] ih))

theorem selfPass_appends {σ : Type} (env : SyncEnv σ) («from» : Identity) (since : Int) :
    Sync.Appends (selfPass env «from» since) :=
  appends_prefix _ _ (fun msg => fetchOwn_appends env «from» msg)

/-- A pass behind its flag appends too. -/
theorem appends_guarded {σ : Type} (flag : Bool)
    (F : List MelangeMessage → Sync σ (List MelangeMessage)) (hF : Sync.Appends F) :
    Sync.Appends (fun out => if flag then F out else Sync.pure out) := by
  cases flag with
  | true => simpa using hF
  | false => intro out w; simp [Sync.pure]

/-- C8: whatever the three flags, when no pass fails — the public pass, if switched
on, fetches the items `a`, then the private pass the items `b`, then the self pass the
items `c`, a pass switched off fetching nothing — `Messages` returns a nil error and a
feed that holds exactly the items of `a ++ b ++ c`, each as often, in non-decreasing
order of timestamp. -/
theorem Messages_feed_sorted {σ : Type} (env : SyncEnv σ) (r : RoutingRouter σ)
    («from» : Identity) (fromUser : models.User) («public» «private» self : Bool)
    (since : Int) (w0 w1 w2 w3 : Run σ) (a b c : List MelangeMessage)
    (hpub : (if «public» then publicPass env r «from» fromUser since [] else Sync.pure []) w0
      = (.ok a, w1))
    (hpriv : (if «private» then privatePass env «from» since [] else Sync.pure []) w1
      = (.ok b, w2))
    (hself : (if self then selfPass env «from» since [] else Sync.pure []) w2 = (.ok c, w3)) :
    (Messages env r «from» fromUser «public» «private» self since w0).1.2 = none ∧
    (Messages env r «from» fromUser «public» «private» self since w0).1.1.Perm (a ++ b ++ c) ∧
    (Messages env r «from» fromUser «public» «private» self since w0).1.1.Pairwise
      (fun x y => x.Timestamp ≤ y.Timestamp) ∧
    (∀ (i j : Nat) (hi : i < (Messages env r «from» fromUser «public» «private» self since
          w0).1.1.length)
        (hj : j < (Messages env r «from» fromUser «public» «private» self since w0).1.1.length),
      i < j →
      ((Messages env r «from» fromUser «public» «private» self since w0).1.1.get ⟨i, hi⟩).Timestamp
        ≤ ((Messages env r «from» fromUser «public» «private» self since
            w0).1.1.get ⟨j, hj⟩).Timestamp) := by
  have h2 := appends_guarded «private» _ (privatePass_appends env «from» since) a w1
  have h3 := appends_guarded self _ (selfPass_appends env «from» since) (a ++ b) w2
  simp only [hpriv] at h2
  simp only [hself] at h3
  have key : Messages env r «from» fromUser «public» «private» self since w0
      = ((sortSort MessageList.Less (a ++ b ++ c), none), w3) := by
    simp only [Messages, hpub, h2, h3]
  rw [key]
  refine ⟨rfl, sortSort_perm _ _, sortSort_sorted _, ?_⟩
  intro i j hi hj hij
  exact List.pairwise_iff_get.1 (sortSort_sorted (a ++ b ++ c)) ⟨i, hi⟩ ⟨j, hj⟩ hij

/-- The witness of C8: all three passes switched on, cursor 10; the feed comes out
in the order 13, 50, 94, 96 of timestamps. -/
theorem Messages_feed_sorted_witness :
    (Messages (demoSyncEnv demoAlerts) demoRouter demoIdentity demoUser true true true 10
        ⟨0, []⟩).1.2 = none ∧
    (Messages (demoSyncEnv demoAlerts) demoRouter demoIdentity demoUser true true true 10
        ⟨0, []⟩).1.1.Perm (demoPublicItems ++ demoPrivateItems ++ demoSelfItems) ∧
    (Messages (demoSyncEnv demoAlerts) demoRouter demoIdentity demoUser true true true 10
        ⟨0, []⟩).1.1.Pairwise (fun x y => x.Timestamp ≤ y.Timestamp) ∧
    (∀ (i j : Nat)
        (hi : i < (Messages (demoSyncEnv demoAlerts) demoRouter demoIdentity demoUser true true true
          10 ⟨0, []⟩).1.1.length)
        (hj : j < (Messages (demoSyncEnv demoAlerts) demoRouter demoIdentity demoUser true true true
          10 ⟨0, []⟩).1.1.length),
      i < j →
      ((Messages (demoSyncEnv demoAlerts) demoRouter demoIdentity demoUser true true true 10
          ⟨0, []⟩).1.1.get ⟨i, hi⟩).Timestamp
        ≤ ((Messages (demoSyncEnv demoAlerts) demoRouter demoIdentity demoUser true true true 10
          ⟨0, []⟩).1.1.get ⟨j, hj⟩).Timestamp) :=
  Messages_feed_sorted (demoSyncEnv demoAlerts) demoRouter demoIdentity demoUser true true true 10
    ⟨0, []⟩ ⟨7, []⟩ ⟨9, []⟩ ⟨11, []⟩ demoPublicItems demoPrivateItems demoSelfItems
    rfl rfl rfl

theorem Messages_order_example : (Messages (demoSyncEnv demoAlerts) demoRouter demoIdentity demoUser true true true 10
    ⟨0, []⟩).1.1.map (fun x => x.Timestamp) = [13, 50, 94, 96] := by decide
theorem Messages_all_off_example : (Messages (demoSyncEnv demoAlerts) demoRouter demoIdentity demoUser false false false 10
    ⟨0, []⟩).1 = ([], none) := by decide

theorem sound_pure {σ α : Type} (a : α) : Sync.Sound (Sync.pure a : Sync σ α) := by
  intro w hw
  simpa [Sync.pure] using hw

theorem sound_step {σ α : Type} (op : σ → Except Err α × σ) : Sync.Sound (Sync.step op) := by
  intro w hw
  unfold Sync.step
  rcases h : op w.world with ⟨r, s⟩
  cases r with
  | error e => simp [hw]
  | ok a => simpa using hw

theorem sound_call {σ α : Type} (op : σ → α × σ) : Sync.Sound (Sync.call op) := by
  intro w hw
  simpa [Sync.call] using hw

theorem sound_check {σ α : Type} (r : Except Err α) : Sync.Sound (Sync.check r : Sync σ α) := by
  intro w hw
  unfold Sync.check
  cases r with
  | error e => simp [hw]
  | ok a => simpa using hw

theorem sound_bind {σ α β : Type} (m : Sync σ α) (f : α → Sync σ β) (hm : Sync.Sound m)
    (hf : ∀ a, Sync.Sound (f a)) : Sync.Sound (m >>= f) := by
  intro w hw
  have h1 := hm w hw
  rw [sync_bind_apply]
  rcases h : m w with ⟨r, w1⟩
  rw [h] at h1
  cases r with
  | error e => simpa using h1
  | ok a => exact hf a w1 h1

theorem DownloadMessage_sound {σ : Type} (env : SyncEnv σ) (r : RoutingRouter σ)
    (msgName : String) («from» : Identity) («to» : String) (toServer : String) :
    Sync.Sound (DownloadMessage env r msgName «from» «to» toServer) := by
  refine sound_bind _ _ (sound_step _) (fun addr => ?_)
  refine sound_bind _ _ (sound_step _) (fun reply => ?_)
  split
  · exact sound_check _
  · exact sound_check _

theorem DownloadPublicMail_sound {σ : Type} (env : SyncEnv σ) (r : RoutingRouter σ)
    (since : Nat) («from» : Identity) («to» : String) :
    Sync.Sound (DownloadPublicMail env r since «from» «to») := by
  refine sound_bind _ _ (sound_step _) (fun addr => ?_)
  refine sound_bind _ _ (sound_step _) (fun reply => ?_)
  split
  · exact sound_check _
  · split
    · exact sound_pure _
    · exact sound_check _

theorem fetchListed_sound {σ : Type} (env : SyncEnv σ) (r : RoutingRouter σ)
    («from» : Identity) (address : String) (l : List server.MessageDescription) :
    ∀ out, Sync.Sound (fetchListed env r «from» address l out) := by
  induction l with
  | nil => intro out; exact sound_pure _
  | cons txn rest ih =>
    intro out
    exact sound_bind _ _ (DownloadMessage_sound env r _ _ _ _) (fun rmsg =>
      sound_bind _ _ (sound_call _) (fun item => ih _))

theorem fetchSubscribed_sound {σ : Type} (env : SyncEnv σ) (r : RoutingRouter σ)
    («from» : Identity) (since : Int) (l : List models.UserSubscription) :
    ∀ out, Sync.Sound (fetchSubscribed env r «from» since l out) := by
  induction l with
  | nil => intro out; exact sound_pure _
  | cons v rest ih =>
    intro out
    exact sound_bind _ _ (DownloadPublicMail_sound env r _ _ _) (fun msg =>
      sound_bind _ _ (fetchListed_sound env r _ _ _ _) (fun out2 => ih out2))

theorem publicPass_sound {σ : Type} (env : SyncEnv σ) (r : RoutingRouter σ)
    («from» : Identity) (fromUser : models.User) (since : Int) (out : List MelangeMessage) :
    Sync.Sound (publicPass env r «from» fromUser since out) :=
  sound_bind _ _ (sound_step _) (fun s => fetchSubscribed_sound env r «from» since s out)

theorem fetchAlerted_sound {σ : Type} (env : SyncEnv σ) («from» : Identity)
    (l : List models.Alert) : ∀ out, Sync.Sound (fetchAlerted env «from» l out) := by
  induction l with
  | nil => intro out; exact sound_pure _
  | cons v rest ih =>
    intro out
    exact sound_bind _ _ (sound_step _) (fun msg =>
      sound_bind _ _ (sound_call _) (fun item => ih _))

theorem privatePass_sound {σ : Type} (env : SyncEnv σ) («from» : Identity) (since : Int)
    (out : List MelangeMessage) : Sync.Sound (privatePass env «from» since out) :=
  sound_bind _ _ (sound_step _) (fun ale => fetchAlerted_sound env «from» ale out)

theorem fetchOwn_sound {σ : Type} (env : SyncEnv σ) («from» : Identity)
    (l : List models.Message) : ∀ out, Sync.Sound (fetchOwn env «from» l out) := by
  induction l with
  | nil => intro out; exact sound_pure _
  | cons v rest ih =>
    intro out
    exact sound_bind _ _ (sound_step _) (fun msg =>
      sound_bind _ _ (sound_call _) (fun item => ih _))

theorem selfPass_sound {σ : Type} (env : SyncEnv σ) («from» : Identity) (since : Int)
    (out : List MelangeMessage) : Sync.Sound (selfPass env «from» since out) :=
  sound_bind _ _ (sound_step _) (fun msg => fetchOwn_sound env «from» msg out)

theorem sound_guarded {σ α : Type} (flag : Bool) (m : Sync σ α) (a : α) (hm : Sync.Sound m) :
    Sync.Sound (if flag then m else Sync.pure a) := by
  cases flag with
  | true => simpa using hm
  | false => simpa using sound_pure a

/-- The two ways `Messages` ends, from a run in which nothing has failed: with a nil
error and no failure recorded, or with a nil feed and the error of the one step that
failed. -/
theorem Messages_outcome {σ : Type} (env : SyncEnv σ) (r : RoutingRouter σ)
    («from» : Identity) (fromUser : models.User) («public» «private» self : Bool)
    (since : Int) (w : Run σ) (h0 : w.failed = []) :
    ((Messages env r «from» fromUser «public» «private» self since w).1.2 = none ∧
      (Messages env r «from» fromUser «public» «private» self since w).2.failed = []) ∨
    (∃ e, (Messages env r «from» fromUser «public» «private» self since w).1 = ([], some e) ∧
      (Messages env r «from» fromUser «public» «private» self since w).2.failed = [e]) := by
  have h1 := sound_guarded «public» (publicPass env r «from» fromUser since []) []
    (publicPass_sound env r «from» fromUser since []) w h0
  rcases hp : (if «public» = true then publicPass env r «from» fromUser since []
      else Sync.pure []) w with ⟨r1, w1⟩
  rw [hp] at h1
  cases r1 with
  | error e =>
    refine Or.inr ⟨e, ?_, ?_⟩
    · simp only [Messages, hp]
    · simpa only [Messages, hp] using h1
  | ok out1 =>
    have h2 := sound_guarded «private» (privatePass env «from» since out1) out1
      (privatePass_sound env «from» since out1) w1 h1
    rcases hq : (if «private» = true then privatePass env «from» since out1
        else Sync.pure out1) w1 with ⟨r2, w2⟩
    rw [hq] at h2
    cases r2 with
    | error e =>
      refine Or.inr ⟨e, ?_, ?_⟩
      · simp only [Messages, hp, hq]
      · simpa only [Messages, hp, hq] using h2
    | ok out2 =>
      have h3 := sound_guarded self (selfPass env «from» since out2) out2
        (selfPass_sound env «from» since out2) w2 h2
      rcases hs : (if self = true then selfPass env «from» since out2
          else Sync.pure out2) w2 with ⟨r3, w3⟩
      rw [hs] at h3
      cases r3 with
      | error e =>
        refine Or.inr ⟨e, ?_, ?_⟩
        · simp only [Messages, hp, hq, hs]
        · simpa only [Messages, hp, hq, hs] using h3
      | ok out3 =>
        refine Or.inl ⟨?_, ?_⟩
        · simp only [Messages, hp, hq, hs]
        · simpa only [Messages, hp, hq, hs] using h3

/-! ## Failures in the world and what `Messages` returns -/

theorem reports_pure {σ α : Type} (a : α) :
    Sync.Reports (Sync.pure a : Sync (σ × List Err) α) := by
  intro w hw
  simpa [Sync.pure] using hw

theorem reports_bind {σ α β : Type} (m : Sync (σ × List Err) α)
    (f : α → Sync (σ × List Err) β) (hm : Sync.Reports m) (hf : ∀ a, Sync.Reports (f a)) :
    Sync.Reports (m >>= f) := by
  intro w hw
  have h1 := hm w hw
  rw [sync_bind_apply]
  rcases h : m w with ⟨r, w1⟩
  rw [h] at h1
  cases r with
  | error e => simpa using h1
  | ok a => exact hf a w1 h1

theorem reports_step {σ α : Type} (op : σ → Except Err α × σ) :
    Sync.Reports (Sync.step (noteFailure (fun _ => []) op)) := by
  intro w hw
  unfold Sync.step noteFailure
  rcases h : op w.world.1 with ⟨res, s1⟩
  cases res with
  | error e => simp [hw]
  | ok a => simp [hw]

theorem reports_call {σ α : Type} (op : σ → α × σ) :
    Sync.Reports (Sync.call (noteNothing op)) := by
  intro w hw
  unfold Sync.call noteNothing
  simpa using hw

/-- A request whose reply the code goes on to check: the failure that lies in the
reply is noted when the reply arrives, and the check `k` is what reports it. -/
theorem reports_send {σ α β : Type} (after : α → List Err) (op : σ → Except Err α × σ)
    (k : α → Sync (σ × List Err) β)
    (hk : ∀ (a : α) (w : Run (σ × List Err)), w.world.2 = after a →
      match k a w with
      | (.ok _, w1) => w1.world.2 = []
      | (.error e, w1) => w1.world.2 = [e]) :
    Sync.Reports (Sync.step (noteFailure after op) >>= k) := by
  intro w hw
  rw [sync_bind_apply]
  unfold Sync.step noteFailure
  rcases h : op w.world.1 with ⟨res, s1⟩
  cases res with
  | error e => simp [hw]
  | ok a =>
    simp only
    exact hk a _ (by simp [hw])

theorem reports_guarded {σ α : Type} (flag : Bool) (m : Sync (σ × List Err) α) (a : α)
    (hm : Sync.Reports m) : Sync.Reports (if flag then m else Sync.pure a) := by
  cases flag with
  | true => simpa using hm
  | false => simpa using reports_pure a

theorem DownloadMessage_reports {σ : Type} (env : SyncEnv σ) (r : RoutingRouter σ)
    (msgName : String) («from» : Identity) («to» : String) (toServer : String) :
    Sync.Reports (DownloadMessage env.noting r.noting msgName «from» «to» toServer) := by
  refine reports_bind _ _ (reports_step _) (fun addr => ?_)
  refine reports_send env.mailReplyFailure _ _ (fun reply w hw => ?_)
  unfold SyncEnv.mailReplyFailure at hw
  by_cases ht : reply.2.1 ≠ env.MailCode
  · rw [if_pos ht] at hw
    simp [SyncEnv.noting, ht, Sync.check, hw]
  · rw [if_neg ht] at hw
    cases hd : env.CreateMailFromBytes reply.1 reply.2.2 with
    | error e =>
      rw [hd] at hw
      simp [SyncEnv.noting, ht, Sync.check, hw, hd]
    | ok mail =>
      rw [hd] at hw
      simp [SyncEnv.noting, ht, Sync.check, hw, hd]

theorem DownloadPublicMail_reports {σ : Type} (env : SyncEnv σ) (r : RoutingRouter σ)
    (since : Nat) («from» : Identity) («to» : String) :
    Sync.Reports (DownloadPublicMail env.noting r.noting since «from» «to») := by
  refine reports_bind _ _ (reports_step _) (fun addr => ?_)
  refine reports_send env.listReplyFailure _ _ (fun reply w hw => ?_)
  unfold SyncEnv.listReplyFailure at hw
  by_cases ht : reply.2.1 ≠ env.MessageListCode
  · rw [if_pos ht] at hw
    simp [SyncEnv.noting, ht, Sync.check, hw]
  · rw [if_neg ht] at hw
    by_cases h0 : reply.1.length = 0
    · rw [if_pos h0] at hw
      simp [SyncEnv.noting, ht, h0, Sync.pure, hw]
    · rw [if_neg h0] at hw
      cases hd : env.CreateMessageListFromBytes reply.1 reply.2.2 with
      | error e =>
        rw [hd] at hw
        simp [SyncEnv.noting, ht, h0, Sync.check, hw, hd]
      | ok l =>
        rw [hd] at hw
        simp [SyncEnv.noting, ht, h0, Sync.check, hw, hd]

theorem fetchListed_reports {σ : Type} (env : SyncEnv σ) (r : RoutingRouter σ)
    («from» : Identity) (address : String) (l : List server.MessageDescription) :
    ∀ out, Sync.Reports (fetchListed env.noting r.noting «from» address l out) := by
  induction l with
  | nil => intro out; exact reports_pure _
  | cons txn rest ih =>
    intro out
    exact reports_bind _ _ (DownloadMessage_reports env r _ _ _ _) (fun rmsg =>
      reports_bind _ _ (reports_call _) (fun item => ih _))

theorem fetchSubscribed_reports {σ : Type} (env : SyncEnv σ) (r : RoutingRouter σ)
    («from» : Identity) (since : Int) (l : List models.UserSubscription) :
    ∀ out, Sync.Reports (fetchSubscribed env.noting r.noting «from» since l out) := by
  induction l with
  | nil => intro out; exact reports_pure _
  | cons v rest ih =>
    intro out
    exact reports_bind _ _ (DownloadPublicMail_reports env r _ _ _) (fun msg =>
      reports_bind _ _ (fetchListed_reports env r _ _ _ _) (fun out2 => ih out2))

theorem publicPass_reports {σ : Type} (env : SyncEnv σ) (r : RoutingRouter σ)
    («from» : Identity) (fromUser : models.User) (since : Int) (out : List MelangeMessage) :
    Sync.Reports (publicPass env.noting r.noting «from» fromUser since out) :=
  reports_bind _ _ (reports_step _) (fun s => fetchSubscribed_reports env r «from» since s out)

theorem fetchAlerted_reports {σ : Type} (env : SyncEnv σ) («from» : Identity)
    (l : List models.Alert) : ∀ out, Sync.Reports (fetchAlerted env.noting «from» l out) := by
  induction l with
  | nil => intro out; exact reports_pure _
  | cons v rest ih =>
    intro out
    exact reports_bind _ _ (reports_step _) (fun msg =>
      reports_bind _ _ (reports_call _) (fun item => ih _))

theorem privatePass_reports {σ : Type} (env : SyncEnv σ) («from» : Identity) (since : Int)
    (out : List MelangeMessage) : Sync.Reports (privatePass env.noting «from» since out) :=
  reports_bind _ _ (reports_step _) (fun ale => fetchAlerted_reports env «from» ale out)

theorem fetchOwn_reports {σ : Type} (env : SyncEnv σ) («from» : Identity)
    (l : List models.Message) : ∀ out, Sync.Reports (fetchOwn env.noting «from» l out) := by
  induction l with
  | nil => intro out; exact reports_pure _
  | cons v rest ih =>
    intro out
    exact reports_bind _ _ (reports_step _) (fun msg =>
      reports_bind _ _ (reports_call _) (fun item => ih _))

theorem selfPass_reports {σ : Type} (env : SyncEnv σ) («from» : Identity) (since : Int)
    (out : List MelangeMessage) : Sync.Reports (selfPass env.noting «from» since out) :=
  reports_bind _ _ (reports_step _) (fun msg => fetchOwn_reports env «from» msg out)

/-- The two ways `Messages` ends in a world where nothing has failed yet: with a nil
error when nothing fails, or with a nil feed and the error of the one failure that
happened in the world. -/
theorem Messages_reports {σ : Type} (env : SyncEnv σ) (r : RoutingRouter σ)
    («from» : Identity) (fromUser : models.User) («public» «private» self : Bool)
    (since : Int) (w : Run (σ × List Err)) (h0 : w.world.2 = []) :
    ((Messages env.noting r.noting «from» fromUser «public» «private» self since w).1.2 = none ∧
      (Messages env.noting r.noting «from» fromUser «public» «private» self since
        w).2.world.2 = []) ∨
    (∃ e, (Messages env.noting r.noting «from» fromUser «public» «private» self since w).1
        = ([], some e) ∧
      (Messages env.noting r.noting «from» fromUser «public» «private» self since
        w).2.world.2 = [e]) := by
  have h1 := reports_guarded «public»
    (publicPass env.noting r.noting «from» fromUser since []) []
    (publicPass_reports env r «from» fromUser since []) w h0
  rcases hp : (if «public» = true then publicPass env.noting r.noting «from» fromUser since []
      else Sync.pure []) w with ⟨r1, w1⟩
  rw [hp] at h1
  cases r1 with
  | error e =>
    refine Or.inr ⟨e, ?_, ?_⟩
    · simp only [Messages, hp]
    · simpa only [Messages, hp] using h1
  | ok out1 =>
    have h2 := reports_guarded «private» (privatePass env.noting «from» since out1) out1
      (privatePass_reports env «from» since out1) w1 h1
    rcases hq : (if «private» = true then privatePass env.noting «from» since out1
        else Sync.pure out1) w1 with ⟨r2, w2⟩
    rw [hq] at h2
    cases r2 with
    | error e =>
      refine Or.inr ⟨e, ?_, ?_⟩
      · simp only [Messages, hp, hq]
      · simpa only [Messages, hp, hq] using h2
    | ok out2 =>
      have h3 := reports_guarded self (selfPass env.noting «from» since out2) out2
        (selfPass_reports env «from» since out2) w2 h2
      rcases hs : (if self = true then selfPass env.noting «from» since out2
          else Sync.pure out2) w2 with ⟨r3, w3⟩
      rw [hs] at h3
      cases r3 with
      | error e =>
        refine Or.inr ⟨e, ?_, ?_⟩
        · simp only [Messages, hp, hq, hs]
        · simpa only [Messages, hp, hq, hs] using h3
      | ok out3 =>
        refine Or.inl ⟨?_, ?_⟩
        · simp only [Messages, hp, hq, hs]
        · simpa only [Messages, hp, hq, hs] using h3

theorem mirrors_pure {σ τ α : Type} (a : α) :
    Sync.Mirrors (Sync.pure a : Sync (σ × τ) α) (Sync.pure a) := by
  intro wr w h1 h2
  exact ⟨rfl, h1, h2⟩

theorem mirrors_bind {σ τ α β : Type} (mr : Sync (σ × τ) α) (m : Sync σ α)
    (fr : α → Sync (σ × τ) β) (f : α → Sync σ β)
    (hm : Sync.Mirrors mr m) (hf : ∀ a, Sync.Mirrors (fr a) (f a)) :
    Sync.Mirrors (mr >>= fr) (m >>= f) := by
  intro wr w h1 h2
  obtain ⟨e1, e2, e3⟩ := hm wr w h1 h2
  rw [sync_bind_apply, sync_bind_apply]
  rcases hr : mr wr with ⟨res1, wr1⟩
  rcases hn : m w with ⟨res2, w1⟩
  rw [hr, hn] at e1 e2 e3
  simp only at e1 e2 e3
  subst e1
  cases res1 with
  | error e => exact ⟨rfl, e2, e3⟩
  | ok a => exact hf a wr1 w1 e2 e3

theorem mirrors_step {σ α : Type} (after : α → List Err) (op : σ → Except Err α × σ) :
    Sync.Mirrors (Sync.step (noteFailure after op)) (Sync.step op) := by
  intro wr w h1 h2
  unfold Sync.step noteFailure
  rw [h1]
  rcases h : op w.world with ⟨res, s1⟩
  cases res with
  | error e => simp [h2]
  | ok a => simp [h2]

theorem mirrors_call {σ α : Type} (op : σ → α × σ) :
    Sync.Mirrors (Sync.call (noteNothing op)) (Sync.call op) := by
  intro wr w h1 h2
  unfold Sync.call noteNothing
  rw [h1]
  simp [h2]

theorem mirrors_check {σ τ α : Type} (r : Except Err α) :
    Sync.Mirrors (Sync.check r : Sync (σ × τ) α) (Sync.check r) := by
  intro wr w h1 h2
  unfold Sync.check
  cases r with
  | error e => simp [h1, h2]
  | ok a => simp [h1, h2]

theorem mirrors_guarded {σ τ α : Type} (flag : Bool) (mr : Sync (σ × τ) α)
    (m : Sync σ α) (a : α) (hm : Sync.Mirrors mr m) :
    Sync.Mirrors (if flag then mr else Sync.pure a) (if flag then m else Sync.pure a) := by
  cases flag with
  | true => simpa using hm
  | false => simpa using (mirrors_pure a : Sync.Mirrors (Sync.pure a : Sync (σ × τ) α) _)

theorem DownloadMessage_mirrors {σ : Type} (env : SyncEnv σ) (r : RoutingRouter σ)
    (msgName : String) («from» : Identity) («to» : String) (toServer : String) :
    Sync.Mirrors (DownloadMessage env.noting r.noting msgName «from» «to» toServer)
      (DownloadMessage env r msgName «from» «to» toServer) := by
  refine mirrors_bind _ _ _ _ (mirrors_step _ _) (fun addr => ?_)
  refine mirrors_bind _ _ _ _ (mirrors_step _ _) (fun reply => ?_)
  by_cases h : reply.2.1 ≠ env.MailCode
  · simpa [SyncEnv.noting, h] using mirrors_check _
  · simpa [SyncEnv.noting, h] using mirrors_check _

theorem DownloadPublicMail_mirrors {σ : Type} (env : SyncEnv σ) (r : RoutingRouter σ)
    (since : Nat) («from» : Identity) («to» : String) :
    Sync.Mirrors (DownloadPublicMail env.noting r.noting since «from» «to»)
      (DownloadPublicMail env r since «from» «to») := by
  refine mirrors_bind _ _ _ _ (mirrors_step _ _) (fun addr => ?_)
  refine mirrors_bind _ _ _ _ (mirrors_step _ _) (fun reply => ?_)
  by_cases h : reply.2.1 ≠ env.MessageListCode
  · simpa [SyncEnv.noting, h] using mirrors_check _
  · by_cases h0 : reply.1.length = 0
    · simpa [SyncEnv.noting, h, h0] using mirrors_pure _
    · simpa [SyncEnv.noting, h, h0] using mirrors_check _

theorem fetchListed_mirrors {σ : Type} (env : SyncEnv σ) (r : RoutingRouter σ)
    («from» : Identity) (address : String) (l : List server.MessageDescription) :
    ∀ out, Sync.Mirrors (fetchListed env.noting r.noting «from» address l out)
      (fetchListed env r «from» address l out) := by
  induction l with
  | nil => intro out; exact mirrors_pure _
  | cons txn rest ih =>
    intro out
    exact mirrors_bind _ _ _ _ (DownloadMessage_mirrors env r _ _ _ _) (fun rmsg =>
      mirrors_bind _ _ _ _ (mirrors_call _) (fun item => ih _))

theorem fetchSubscribed_mirrors {σ : Type} (env : SyncEnv σ) (r : RoutingRouter σ)
    («from» : Identity) (since : Int) (l : List models.UserSubscription) :
    ∀ out, Sync.Mirrors (fetchSubscribed env.noting r.noting «from» since l out)
      (fetchSubscribed env r «from» since l out) := by
  induction l with
  | nil => intro out; exact mirrors_pure _
  | cons v rest ih =>
    intro out
    exact mirrors_bind _ _ _ _ (DownloadPublicMail_mirrors env r _ _ _) (fun msg =>
      mirrors_bind _ _ _ _ (fetchListed_mirrors env r _ _ _ _) (fun out2 => ih out2))

theorem publicPass_mirrors {σ : Type} (env : SyncEnv σ) (r : RoutingRouter σ)
    («from» : Identity) (fromUser : models.User) (since : Int) (out : List MelangeMessage) :
    Sync.Mirrors (publicPass env.noting r.noting «from» fromUser since out)
      (publicPass env r «from» fromUser since out) :=
  mirrors_bind _ _ _ _ (mirrors_step _ _)
    (fun s => fetchSubscribed_mirrors env r «from» since s out)

theorem fetchAlerted_mirrors {σ : Type} (env : SyncEnv σ) («from» : Identity)
    (l : List models.Alert) :
    ∀ out, Sync.Mirrors (fetchAlerted env.noting «from» l out)
      (fetchAlerted env «from» l out) := by
  induction l with
  | nil => intro out; exact mirrors_pure _
  | cons v rest ih =>
    intro out
    exact mirrors_bind _ _ _ _ (mirrors_step _ _) (fun msg =>
      mirrors_bind _ _ _ _ (mirrors_call _) (fun item => ih _))

theorem privatePass_mirrors {σ : Type} (env : SyncEnv σ) («from» : Identity) (since : Int)
    (out : List MelangeMessage) :
    Sync.Mirrors (privatePass env.noting «from» since out)
      (privatePass env «from» since out) :=
  mirrors_bind _ _ _ _ (mirrors_step _ _) (fun ale => fetchAlerted_mirrors env «from» ale out)

theorem fetchOwn_mirrors {σ : Type} (env : SyncEnv σ) («from» : Identity)
    (l : List models.Message) :
    ∀ out, Sync.Mirrors (fetchOwn env.noting «from» l out) (fetchOwn env «from» l out) := by
  induction l with
  | nil => intro out; exact mirrors_pure _
  | cons v rest ih =>
    intro out
    exact mirrors_bind _ _ _ _ (mirrors_step _ _) (fun msg =>
      mirrors_bind _ _ _ _ (mirrors_call _) (fun item => ih _))

theorem selfPass_mirrors {σ : Type} (env : SyncEnv σ) («from» : Identity) (since : Int)
    (out : List MelangeMessage) :
    Sync.Mirrors (selfPass env.noting «from» since out) (selfPass env «from» since out) :=
  mirrors_bind _ _ _ _ (mirrors_step _ _) (fun msg => fetchOwn_mirrors env «from» msg out)

/-- Noting the failures changes nothing in what `Messages` returns. -/
theorem Messages_noting {σ : Type} (env : SyncEnv σ) (r : RoutingRouter σ)
    («from» : Identity) (fromUser : models.User) («public» «private» self : Bool)
    (since : Int) (wr : Run (σ × List Err)) (w : Run σ)
    (h1 : wr.world.1 = w.world) (h2 : wr.failed = w.failed) :
    (Messages env.noting r.noting «from» fromUser «public» «private» self since wr).1
      = (Messages env r «from» fromUser «public» «private» self since w).1 := by
  obtain ⟨a1, a2, a3⟩ := mirrors_guarded «public» _ _ []
    (publicPass_mirrors env r «from» fromUser since []) wr w h1 h2
  rcases hp : (if «public» = true then
      publicPass env.noting r.noting «from» fromUser since []
      else Sync.pure []) wr with ⟨res1, wr1⟩
  rcases hq : (if «public» = true then publicPass env r «from» fromUser since []
      else Sync.pure []) w with ⟨res1n, w1⟩
  rw [hp, hq] at a1 a2 a3
  simp only at a1 a2 a3
  subst a1
  cases res1 with
  | error e => simp only [Messages, hp, hq]
  | ok out1 =>
    obtain ⟨b1, b2, b3⟩ := mirrors_guarded «private» _ _ out1
      (privatePass_mirrors env «from» since out1) wr1 w1 a2 a3
    rcases hp2 : (if «private» = true then privatePass env.noting «from» since out1
        else Sync.pure out1) wr1 with ⟨res2, wr2⟩
    rcases hq2 : (if «private» = true then privatePass env «from» since out1
        else Sync.pure out1) w1 with ⟨res2n, w2⟩
    rw [hp2, hq2] at b1 b2 b3
    simp only at b1 b2 b3
    subst b1
    cases res2 with
    | error e => simp only [Messages, hp, hq, hp2, hq2]
    | ok out2 =>
      obtain ⟨c1, c2, c3⟩ := mirrors_guarded self _ _ out2
        (selfPass_mirrors env «from» since out2) wr2 w2 b2 b3
      rcases hp3 : (if self = true then selfPass env.noting «from» since out2
          else Sync.pure out2) wr2 with ⟨res3, wr3⟩
      rcases hq3 : (if self = true then selfPass env «from» since out2
          else Sync.pure out2) w2 with ⟨res3n, w3⟩
      rw [hp3, hq3] at c1 c2 c3
      simp only at c1 c2 c3
      subst c1
      cases res3 with
      | error e => simp only [Messages, hp, hq, hp2, hq2, hp3, hq3]
      | ok out3 => simp only [Messages, hp, hq, hp2, hq2, hp3, hq3]

/-- C9: whatever the three flags, when in the world in which `Messages` runs an
operation of a pass that is switched on fails with the error `e` — a database
select, an alias resolution, a request for a message list or for a message (the
connection fails, or the reply has the wrong wire type or cannot be decoded), the
download of an alerted message, the reconstruction of an own message — `Messages`
returns a nil feed and the error `e`: none of the items gathered before the failure
is returned. The failures are noted by the world, not by `Messages`, and noting them
changes nothing in what `Messages` returns. -/
theorem Messages_aborts {σ : Type} (env : SyncEnv σ) (r : RoutingRouter σ)
    («from» : Identity) (fromUser : models.User) («public» «private» self : Bool)
    (since : Int) (w : Run (σ × List Err)) (e : Err) (h0 : w.world.2 = [])
    (he : e ∈ (Messages env.noting r.noting «from» fromUser «public» «private» self since
      w).2.world.2) :
    (Messages env.noting r.noting «from» fromUser «public» «private» self since w).1
      = ([], some e) ∧
    (Messages env r «from» fromUser «public» «private» self since ⟨w.world.1, w.failed⟩).1
      = ([], some e) := by
  have hres : (Messages env.noting r.noting «from» fromUser «public» «private» self since w).1
      = ([], some e) := by
    rcases Messages_reports env r «from» fromUser «public» «private» self since w h0 with
      ⟨_, hnone⟩ | ⟨e1, hres, hlog⟩
    · rw [hnone] at he
      simp at he
    · rw [hlog] at he
      simp only [List.mem_singleton] at he
      rw [hres, he]
  refine ⟨hres, ?_⟩
  rw [← Messages_noting env r «from» fromUser «public» «private» self since w
    ⟨w.world.1, w.failed⟩ rfl rfl]
  exact hres

/-- The witness of C9: the private pass has gathered one item when the download of
the second alerted message fails. -/
theorem Messages_aborts_witness :
    (Messages (demoSyncEnv [⟨"alice", "carol", "m7", 50⟩, ⟨"alice", "carol", "lost", 60⟩]).noting
        demoRouter.noting demoIdentity demoUser false true true 10 ⟨(0, []), []⟩).1
      = ([], some (.text "message not found")) ∧
    (Messages (demoSyncEnv [⟨"alice", "carol", "m7", 50⟩, ⟨"alice", "carol", "lost", 60⟩])
        demoRouter demoIdentity demoUser false true true 10
        ⟨((0, []) : Nat × List Err).1, []⟩).1
      = ([], some (.text "message not found")) :=
  Messages_aborts (demoSyncEnv [⟨"alice", "carol", "m7", 50⟩, ⟨"alice", "carol", "lost", 60⟩])
    demoRouter demoIdentity demoUser false true true 10 ⟨(0, []), []⟩
    (.text "message not found") rfl (by decide)

/-- A failed select on the subscriptions, a reply of the wrong wire type and an
undecodable mail are failures the world notes. -/
theorem noting_example :
    ((demoSyncEnv []).noting.SendMessageAndReceiveWithoutTimestamp
        (.CreateTransferMessage "m1" (demoAddress "alice") (demoAddress "bob"))
        demoIdentity (demoAddress "bob") (0, [])).2.2 = [] ∧
    ({ demoSyncEnv [] with MailCode := "MAIL" }.noting.SendMessageAndReceiveWithoutTimestamp
        (.CreateTransferMessage "m1" (demoAddress "alice") (demoAddress "bob"))
        demoIdentity (demoAddress "bob") (0, [])).2.2 = [.text "Wrong message type."] ∧
    ({ demoSyncEnv [] with
        selectSubscriptions := fun _ s => (.error (.text "db down"), s) }.noting.selectSubscriptions
        1 (0, [])).2.2 = [.text "db down"] := by
  refine ⟨?_, ?_, ?_⟩ <;> decide

/-- With a database that is down the public pass fails at its select, and `Messages`
returns that error and a nil feed. -/
theorem Messages_select_fails_example :
    (Messages { demoSyncEnv [] with
        selectSubscriptions := fun _ s => (.error (.text "db down"), s) }
      demoRouter demoIdentity demoUser true true true 10 ⟨0, []⟩).1
      = ([], some (.text "db down")) := by
  decide

/-! ## Properties of `melangeServer.RetrieveMessageForUser` -/

/-- C11: when the author has exactly one identity record, the user record of that
identity loads and the identity converts, `RetrieveMessageForUser("profile", author,
requester)` returns a mail addressed to the requester whose components are exactly
`airdispat.ch/profile/name` with the bytes of the user's name and
`airdispat.ch/profile/avatar` with the bytes of the user's avatar, and it runs no
select on the messages table. -/
theorem RetrieveMessageForUser_profile (env : ServerEnv) (author forAddr : Address)
    (id0 : models.Identity) (user : models.User) (did : Identity)
    (hid : env.selectIdentity author.String = .ok [id0])
    (huser : env.getUser id0.UserId = .ok (some user))
    (hdid : env.IdentityToDispatch id0 = .ok did) :
    (melangeServer.RetrieveMessageForUser env "profile" author forAddr).1
      = some { From := did.Address, To := forAddr, Created := env.now,
               Components :=
                 [⟨"airdispat.ch/profile/name", stringBytes user.Name⟩,
                  ⟨"airdispat.ch/profile/avatar", stringBytes (env.GetAvatar user)⟩] } ∧
    (∀ n a, ServerEvent.SelectMessages n a ∉
      (melangeServer.RetrieveMessageForUser env "profile" author forAddr).2) := by
  simp [melangeServer.RetrieveMessageForUser, hid, huser, hdid, CreateMail, Mail.AddComponent]

/-- The witness of C11: the profile of `alice`, asked for by `bob`. -/
theorem RetrieveMessageForUser_profile_witness :
    (melangeServer.RetrieveMessageForUser demoServerEnv "profile" (demoAddress "alice")
        (demoAddress "bob")).1
      = some { From := (⟨demoAddress "alice"⟩ : Identity).Address, To := demoAddress "bob",
               Created := demoServerEnv.now,
               Components :=
                 [⟨"airdispat.ch/profile/name", stringBytes demoUser.Name⟩,
                  ⟨"airdispat.ch/profile/avatar",
                    stringBytes (demoServerEnv.GetAvatar demoUser)⟩] } ∧
    (∀ n a, ServerEvent.SelectMessages n a ∉
      (melangeServer.RetrieveMessageForUser demoServerEnv "profile" (demoAddress "alice")
        (demoAddress "bob")).2) :=
  RetrieveMessageForUser_profile demoServerEnv (demoAddress "alice") (demoAddress "bob")
    ⟨1, "alice"⟩ demoUser ⟨demoAddress "alice"⟩ rfl rfl rfl

theorem stringBytes_example : stringBytes "Alice" = [65, 108, 105, 99, 101] := by decide

/-- On the profile path no outcome of the queries leads to a select on the messages
table. -/
theorem RetrieveMessageForUser_profile_no_select (env : ServerEnv) (author forAddr : Address)
    (n a : String) :
    ServerEvent.SelectMessages n a ∉
      (melangeServer.RetrieveMessageForUser env "profile" author forAddr).2 := by
  simp only [melangeServer.RetrieveMessageForUser, if_true]
  split
  · simp
  · split
    · split
      · simp
      · simp
      · split <;> simp
    · simp

/-! ## Properties of `Server.GetMessages` -/

/-- The slot the loop of `Server.GetMessages` leaves for a stored message: the
response message when the message marshals, nil when it does not. -/
theorem fillMessages_slots (m : dispatcher.Server) (owner : String)
    (msg : List dispatcher.Message) :
    ∀ (pre : List (Option ResponseMessage)) (handled : List (String × Err)),
      (dispatcher.Server.fillMessages m owner msg pre.length
          (pre ++ List.replicate msg.length none) handled).1
        = pre ++ msg.map (fun v =>
            match m.ToDispatch v owner with
            | .ok data => some (m.CreateResponseMessage data m.Key.Address
                (m.CreateAddressFromString v.To))
            | .error _ => none) := by
  induction msg with
  | nil => intro pre handled; simp [dispatcher.Server.fillMessages]
  | cons v rest ih =>
    intro pre handled
    unfold dispatcher.Server.fillMessages
    cases hv : m.ToDispatch v owner with
    | error err =>
      have := ih (pre ++ [none]) (handled ++ [("(GetMessages:DAP) Marshalling message", err)])
      simp only [List.length_append, List.length_singleton, List.append_assoc,
        List.singleton_append] at this
      simpa [List.replicate_succ, hv] using this
    | ok data =>
      have := ih (pre ++ [some (m.CreateResponseMessage data m.Key.Address
        (m.CreateAddressFromString v.To))]) handled
      simp only [List.length_append, List.length_singleton, List.append_assoc,
        List.singleton_append] at this
      simpa [List.replicate_succ, hv, List.set_append_right] using this

/-- When the lookup succeeds `Server.GetMessages` returns a nil error and one slot
per stored message, in order: nil for a message that did not marshal. -/
theorem GetMessages_slots (m : dispatcher.Server) (since : Nat) (owner : String)
    (context : Bool) (msg : List dispatcher.Message)
    (h : m.GetIncomingMessagesSince since owner = .ok msg) :
    (m.GetMessages since owner context).1
      = (msg.map (fun v =>
          match m.ToDispatch v owner with
          | .ok data => some (m.CreateResponseMessage data m.Key.Address
              (m.CreateAddressFromString v.To))
          | .error _ => none), none) := by
  have := fillMessages_slots m owner msg [] []
  simp only [List.length_nil, List.nil_append] at this
  simp [dispatcher.Server.GetMessages, h, this]

/-- C12: `Server.GetMessages` on two stored messages of which the first does not
marshal returns, with a nil error, a slice of two entries, the first of them nil:
the failure is reported through `HandleError`, but its slot is not removed. -/
theorem GetMessages_leaves_nil_entry :
    (demoDispatcher [⟨"m1", "alice", []⟩, ⟨"m2", "alice", [7]⟩]).GetMessages 0 "alice" false
      = (([none, some ⟨[7]⟩], none),
          [("(GetMessages:DAP) Marshalling message", .text "empty message")]) := by
  decide

/-! ## Properties of the status code of a response -/

/-- A reply of wire type response that decodes to `r` makes `sendAndGetResponse`
return `r`, whatever the status code of `r`. -/
theorem sendAndGetResponse_response (env : ClientEnv) (c : Client) (msg : RawMessage)
    (data : List Nat) (head : Header) (r : Response)
    (hne : env.codes.ResponseCode ≠ env.codes.ErrorCode)
    (hreply : env.SendMessageAndReceiveWithTimestamp msg c.Key c.Server
      = .ok (data, env.codes.ResponseCode, head))
    (hdec : env.CreateResponseFromBytes data head = .ok r) :
    c.sendAndGetResponse env msg = .ok r := by
  simp [Client.sendAndGetResponse, Client.checkForError, hreply, hdec, hne]

/-- A reply of wire type response that decodes to `r` with a status code other than
0 makes `sendAndCheck` return the error "Unexpected Return Type". -/
theorem sendAndCheck_nonzero (env : ClientEnv) (c : Client) (msg : RawMessage)
    (data : List Nat) (head : Header) (r : Response)
    (hne : env.codes.ResponseCode ≠ env.codes.ErrorCode)
    (hreply : env.SendMessageAndReceiveWithTimestamp msg c.Key c.Server
      = .ok (data, env.codes.ResponseCode, head))
    (hdec : env.CreateResponseFromBytes data head = .ok r) (hcode : r.Code ≠ 0) :
    c.sendAndCheck env msg = some (.text "Unexpected Return Type") := by
  simp [Client.sendAndCheck, sendAndGetResponse_response env c msg data head r hne hreply hdec,
    hcode]

/-- C13: when the server answers every request with a reply of wire type response
that decodes to `r`, `Client.GetData` returns `r.Data` with a nil error whatever
`r.Code` is, whereas for `r.Code ≠ 0` `sendAndCheck` returns the error "Unexpected
Return Type", and with it `SetData`, `Register` and `Unregister`, and `PublishMessage`
and `UpdateMessage` return a non-nil error. -/
theorem GetData_ignores_code (env : ClientEnv) (c : Client) (data : List Nat)
    (head : Header) (r : Response)
    (hne : env.codes.ResponseCode ≠ env.codes.ErrorCode)
    (hreply : ∀ msg, env.SendMessageAndReceiveWithTimestamp msg c.Key c.Server
      = .ok (data, env.codes.ResponseCode, head))
    (hdec : env.CreateResponseFromBytes data head = .ok r) :
    (∀ key, c.GetData env key = (r.Data, none)) ∧
    (r.Code ≠ 0 →
      (∀ msg, c.sendAndCheck env msg = some (.text "Unexpected Return Type")) ∧
      (∀ key value, c.SetData env key value = some (.text "Unexpected Return Type")) ∧
      (∀ keys, c.Register env keys = some (.text "Unexpected Return Type")) ∧
      (∀ keys, c.Unregister env keys = some (.text "Unexpected Return Type")) ∧
      (∀ enc «to» name alert_, (c.PublishMessage env enc «to» name alert_).1.2 ≠ none) ∧
      (∀ enc «to» name, (c.UpdateMessage env enc «to» name).1 ≠ none)) := by
  have hget : ∀ msg, c.sendAndGetResponse env msg = .ok r := fun msg =>
    sendAndGetResponse_response env c msg data head r hne (hreply msg) hdec
  refine ⟨?_, ?_⟩
  · intro key
    simp [Client.GetData, hget]
  · intro hcode
    have hchk : ∀ msg, c.sendAndCheck env msg = some (.text "Unexpected Return Type") :=
      fun msg => sendAndCheck_nonzero env c msg data head r hne (hreply msg) hdec hcode
    refine ⟨hchk, ?_, ?_, ?_, ?_, ?_⟩
    · intro key value
      simp [Client.SetData, hchk]
    · intro keys
      simp [Client.Register, hchk]
    · intro keys
      simp [Client.Unregister, hchk]
    · intro enc «to» name alert_
      unfold Client.PublishMessage
      cases c.signAndEncrypt env enc «to» with
      | error err => simp
      | ok bytes => simp [hchk]
    · intro enc «to» name
      unfold Client.UpdateMessage
      cases c.signAndEncrypt env enc «to» with
      | error err => simp
      | ok bytes =>
        by_cases hn : name = ""
        · simp [hn]
        · simp [hn, hchk]

/-- The witness of C13: the server answers with status code 5 and the data `[42]`. -/
theorem GetData_ignores_code_witness :
    (∀ key, demoClient.GetData (demoEnv [[1, 5, 0, 42]]) key
      = ((⟨5, 0, [42]⟩ : Response).Data, none)) ∧
    ((⟨5, 0, [42]⟩ : Response).Code ≠ 0 →
      (∀ msg, demoClient.sendAndCheck (demoEnv [[1, 5, 0, 42]]) msg
        = some (.text "Unexpected Return Type")) ∧
      (∀ key value, demoClient.SetData (demoEnv [[1, 5, 0, 42]]) key value
        = some (.text "Unexpected Return Type")) ∧
      (∀ keys, demoClient.Register (demoEnv [[1, 5, 0, 42]]) keys
        = some (.text "Unexpected Return Type")) ∧
      (∀ keys, demoClient.Unregister (demoEnv [[1, 5, 0, 42]]) keys
        = some (.text "Unexpected Return Type")) ∧
      (∀ enc «to» name alert_,
        (demoClient.PublishMessage (demoEnv [[1, 5, 0, 42]]) enc «to» name alert_).1.2 ≠ none) ∧
      (∀ enc «to» name,
        (demoClient.UpdateMessage (demoEnv [[1, 5, 0, 42]]) enc «to» name).1 ≠ none)) :=
  GetData_ignores_code (demoEnv [[1, 5, 0, 42]]) demoClient [5, 0, 42]
    ⟨demoAddress "server", demoAddress "alice", []⟩ ⟨5, 0, [42]⟩ (by decide)
    (fun _ => rfl) rfl

theorem GetData_nonzero_example :
    demoClient.GetData (demoEnv [[1, 5, 0, 42]]) "k" = ([42], none) := by decide
theorem SetData_nonzero_example :
    demoClient.SetData (demoEnv [[1, 5, 0, 42]]) "k" [1]
      = some (.text "Unexpected Return Type") := by decide
theorem SetData_zero_example :
    demoClient.SetData (demoEnv [[1, 0, 0, 42]]) "k" [1] = none := by decide

/-! ## Properties of the cursor of `Messages` -/

theorem keeps_pure {σ α : Type} (P : CursorUse → Prop) (a : α) :
    Sync.Keeps P (Sync.pure a : Sync (σ × List CursorUse) α) := by
  intro w hw
  simpa [Sync.pure] using hw

theorem keeps_bind {σ α β : Type} (P : CursorUse → Prop) (m : Sync (σ × List CursorUse) α)
    (f : α → Sync (σ × List CursorUse) β) (hm : Sync.Keeps P m)
    (hf : ∀ a, Sync.Keeps P (f a)) : Sync.Keeps P (m >>= f) := by
  intro w hw
  have h1 := hm w hw
  rw [sync_bind_apply]
  rcases h : m w with ⟨r, w1⟩
  rw [h] at h1
  cases r with
  | error e => simpa using h1
  | ok a => exact hf a w1 h1

theorem keeps_step {σ α : Type} (P : CursorUse → Prop) (evs : List CursorUse)
    (op : σ → Except Err α × σ) (hevs : ∀ ev ∈ evs, P ev) :
    Sync.Keeps P (Sync.step (recordAs evs op)) := by
  intro w hw ev hev
  unfold Sync.step recordAs at hev
  rcases h : op w.world.1 with ⟨res, s1⟩
  rw [h] at hev
  cases res with
  | error e =>
    simp only [List.mem_append] at hev
    rcases hev with hev | hev
    · exact hw ev hev
    · exact hevs ev hev
  | ok a =>
    simp only [List.mem_append] at hev
    rcases hev with hev | hev
    · exact hw ev hev
    · exact hevs ev hev

theorem keeps_call {σ α : Type} (P : CursorUse → Prop) (op : σ → α × σ) :
    Sync.Keeps P (Sync.call (recordAs [] op)) := by
  intro w hw ev hev
  simp only [Sync.call, recordAs, List.append_nil] at hev
  exact hw ev hev

theorem keeps_check {σ α : Type} (P : CursorUse → Prop) (r : Except Err α) :
    Sync.Keeps P (Sync.check r : Sync (σ × List CursorUse) α) := by
  intro w hw ev hev
  unfold Sync.check at hev
  cases r with
  | error e => exact hw ev (by simpa using hev)
  | ok a => exact hw ev (by simpa using hev)

theorem keeps_guarded {σ α : Type} (P : CursorUse → Prop) (flag : Bool)
    (m : Sync (σ × List CursorUse) α) (a : α) (hm : Sync.Keeps P m) :
    Sync.Keeps P (if flag then m else Sync.pure a) := by
  cases flag with
  | true => simpa using hm
  | false => simpa using keeps_pure P a

theorem DownloadMessage_keeps {σ : Type} (P : CursorUse → Prop) (env : SyncEnv σ)
    (r : RoutingRouter σ) (msgName : String) («from» : Identity) («to» : String)
    (toServer : String) :
    Sync.Keeps P (DownloadMessage env.recording r.recording msgName «from» «to» toServer) := by
  refine keeps_bind P _ _ (keeps_step P [] _ (by simp)) (fun addr => ?_)
  refine keeps_bind P _ _ (keeps_step P [] _ (by simp)) (fun reply => ?_)
  split
  · exact keeps_check P _
  · exact keeps_check P _

theorem DownloadPublicMail_keeps {σ : Type} (env : SyncEnv σ) (r : RoutingRouter σ)
    (since : Int) («from» : Identity) («to» : String) :
    Sync.Keeps (CursorUse.Agrees since)
      (DownloadPublicMail env.recording r.recording (uint64 since) «from» «to») := by
  refine keeps_bind _ _ _ (keeps_step _ [] _ (by simp)) (fun addr => ?_)
  refine keeps_bind _ _ _ (keeps_step _ [_] _ ?_) (fun reply => ?_)
  · intro ev hev
    rw [List.mem_singleton] at hev
    subst hev
    exact ⟨_, _, rfl⟩
  · split
    · exact keeps_check _ _
    · split
      · exact keeps_pure _ _
      · exact keeps_check _ _

theorem fetchListed_keeps {σ : Type} (P : CursorUse → Prop) (env : SyncEnv σ)
    (r : RoutingRouter σ) («from» : Identity) (address : String)
    (l : List server.MessageDescription) :
    ∀ out, Sync.Keeps P (fetchListed env.recording r.recording «from» address l out) := by
  induction l with
  | nil => intro out; exact keeps_pure P _
  | cons txn rest ih =>
    intro out
    exact keeps_bind P _ _ (DownloadMessage_keeps P env r _ _ _ _) (fun rmsg =>
      keeps_bind P _ _ (keeps_call P _) (fun item => ih _))

theorem fetchSubscribed_keeps {σ : Type} (env : SyncEnv σ) (r : RoutingRouter σ)
    («from» : Identity) (since : Int) (l : List models.UserSubscription) :
    ∀ out, Sync.Keeps (CursorUse.Agrees since)
      (fetchSubscribed env.recording r.recording «from» since l out) := by
  induction l with
  | nil => intro out; exact keeps_pure _ _
  | cons v rest ih =>
    intro out
    exact keeps_bind _ _ _ (DownloadPublicMail_keeps env r since _ _) (fun msg =>
      keeps_bind _ _ _ (fetchListed_keeps _ env r _ _ _ _) (fun out2 => ih out2))

theorem publicPass_keeps {σ : Type} (env : SyncEnv σ) (r : RoutingRouter σ)
    («from» : Identity) (fromUser : models.User) (since : Int) (out : List MelangeMessage) :
    Sync.Keeps (CursorUse.Agrees since)
      (publicPass env.recording r.recording «from» fromUser since out) :=
  keeps_bind _ _ _ (keeps_step _ [] _ (by simp))
    (fun s => fetchSubscribed_keeps env r «from» since s out)

theorem fetchAlerted_keeps {σ : Type} (P : CursorUse → Prop) (env : SyncEnv σ)
    («from» : Identity) (l : List models.Alert) :
    ∀ out, Sync.Keeps P (fetchAlerted env.recording «from» l out) := by
  induction l with
  | nil => intro out; exact keeps_pure P _
  | cons v rest ih =>
    intro out
    exact keeps_bind P _ _ (keeps_step P [] _ (by simp)) (fun msg =>
      keeps_bind P _ _ (keeps_call P _) (fun item => ih _))

theorem privatePass_keeps {σ : Type} (env : SyncEnv σ) («from» : Identity) (since : Int)
    (out : List MelangeMessage) :
    Sync.Keeps (CursorUse.Agrees since) (privatePass env.recording «from» since out) :=
  keeps_bind _ _ _ (keeps_step _ [_] _ (by simp [CursorUse.Agrees]))
    (fun ale => fetchAlerted_keeps _ env «from» ale out)

theorem fetchOwn_keeps {σ : Type} (P : CursorUse → Prop) (env : SyncEnv σ)
    («from» : Identity) (l : List models.Message) :
    ∀ out, Sync.Keeps P (fetchOwn env.recording «from» l out) := by
  induction l with
  | nil => intro out; exact keeps_pure P _
  | cons v rest ih =>
    intro out
    exact keeps_bind P _ _ (keeps_step P [] _ (by simp)) (fun msg =>
      keeps_bind P _ _ (keeps_call P _) (fun item => ih _))

theorem selfPass_keeps {σ : Type} (env : SyncEnv σ) («from» : Identity) (since : Int)
    (out : List MelangeMessage) :
    Sync.Keeps (CursorUse.Agrees since) (selfPass env.recording «from» since out) :=
  keeps_bind _ _ _ (keeps_step _ [_] _ (by simp [CursorUse.Agrees]))
    (fun msg => fetchOwn_keeps _ env «from» msg out)

/-! ## The record leaves the run as it is -/

theorem erases_pure {σ α : Type} (a : α) :
    Sync.Erases (Sync.pure a : Sync (σ × List CursorUse) α) (Sync.pure a) := by
  intro wr w h1 h2
  exact ⟨rfl, h1, h2⟩

theorem erases_bind {σ α β : Type} (mr : Sync (σ × List CursorUse) α) (m : Sync σ α)
    (fr : α → Sync (σ × List CursorUse) β) (f : α → Sync σ β)
    (hm : Sync.Erases mr m) (hf : ∀ a, Sync.Erases (fr a) (f a)) :
    Sync.Erases (mr >>= fr) (m >>= f) := by
  intro wr w h1 h2
  obtain ⟨e1, e2, e3⟩ := hm wr w h1 h2
  rw [sync_bind_apply, sync_bind_apply]
  rcases hr : mr wr with ⟨res1, wr1⟩
  rcases hn : m w with ⟨res2, w1⟩
  rw [hr, hn] at e1 e2 e3
  simp only at e1 e2 e3
  subst e1
  cases res1 with
  | error e => exact ⟨rfl, e2, e3⟩
  | ok a => exact hf a wr1 w1 e2 e3

theorem erases_step {σ α : Type} (evs : List CursorUse) (op : σ → Except Err α × σ) :
    Sync.Erases (Sync.step (recordAs evs op)) (Sync.step op) := by
  intro wr w h1 h2
  unfold Sync.step recordAs
  rw [h1]
  rcases h : op w.world with ⟨res, s1⟩
  cases res with
  | error e => simp [h2]
  | ok a => simp [h2]

theorem erases_call {σ α : Type} (op : σ → α × σ) :
    Sync.Erases (Sync.call (recordAs [] op)) (Sync.call op) := by
  intro wr w h1 h2
  unfold Sync.call recordAs
  rw [h1]
  simp [h2]

theorem erases_check {σ α : Type} (r : Except Err α) :
    Sync.Erases (Sync.check r : Sync (σ × List CursorUse) α) (Sync.check r) := by
  intro wr w h1 h2
  unfold Sync.check
  cases r with
  | error e => simp [h1, h2]
  | ok a => simp [h1, h2]

theorem erases_guarded {σ α : Type} (flag : Bool) (mr : Sync (σ × List CursorUse) α)
    (m : Sync σ α) (a : α) (hm : Sync.Erases mr m) :
    Sync.Erases (if flag then mr else Sync.pure a) (if flag then m else Sync.pure a) := by
  cases flag with
  | true => simpa using hm
  | false => simpa using erases_pure a

theorem DownloadMessage_erases {σ : Type} (env : SyncEnv σ) (r : RoutingRouter σ)
    (msgName : String) («from» : Identity) («to» : String) (toServer : String) :
    Sync.Erases (DownloadMessage env.recording r.recording msgName «from» «to» toServer)
      (DownloadMessage env r msgName «from» «to» toServer) := by
  refine erases_bind _ _ _ _ (erases_step [] _) (fun addr => ?_)
  refine erases_bind _ _ _ _ (erases_step [] _) (fun reply => ?_)
  by_cases h : reply.2.1 ≠ env.MailCode
  · simpa [SyncEnv.recording, h] using erases_check _
  · simpa [SyncEnv.recording, h] using erases_check _

theorem DownloadPublicMail_erases {σ : Type} (env : SyncEnv σ) (r : RoutingRouter σ)
    (since : Nat) («from» : Identity) («to» : String) :
    Sync.Erases (DownloadPublicMail env.recording r.recording since «from» «to»)
      (DownloadPublicMail env r since «from» «to») := by
  refine erases_bind _ _ _ _ (erases_step [] _) (fun addr => ?_)
  refine erases_bind _ _ _ _ (erases_step [_] _) (fun reply => ?_)
  by_cases h : reply.2.1 ≠ env.MessageListCode
  · simpa [SyncEnv.recording, h] using erases_check _
  · by_cases h0 : reply.1.length = 0
    · simpa [SyncEnv.recording, h, h0] using erases_pure _
    · simpa [SyncEnv.recording, h, h0] using erases_check _

theorem fetchListed_erases {σ : Type} (env : SyncEnv σ) (r : RoutingRouter σ)
    («from» : Identity) (address : String) (l : List server.MessageDescription) :
    ∀ out, Sync.Erases (fetchListed env.recording r.recording «from» address l out)
      (fetchListed env r «from» address l out) := by
  induction l with
  | nil => intro out; exact erases_pure _
  | cons txn rest ih =>
    intro out
    exact erases_bind _ _ _ _ (DownloadMessage_erases env r _ _ _ _) (fun rmsg =>
      erases_bind _ _ _ _ (erases_call _) (fun item => ih _))

theorem fetchSubscribed_erases {σ : Type} (env : SyncEnv σ) (r : RoutingRouter σ)
    («from» : Identity) (since : Int) (l : List models.UserSubscription) :
    ∀ out, Sync.Erases (fetchSubscribed env.recording r.recording «from» since l out)
      (fetchSubscribed env r «from» since l out) := by
  induction l with
  | nil => intro out; exact erases_pure _
  | cons v rest ih =>
    intro out
    exact erases_bind _ _ _ _ (DownloadPublicMail_erases env r _ _ _) (fun msg =>
      erases_bind _ _ _ _ (fetchListed_erases env r _ _ _ _) (fun out2 => ih out2))

theorem publicPass_erases {σ : Type} (env : SyncEnv σ) (r : RoutingRouter σ)
    («from» : Identity) (fromUser : models.User) (since : Int) (out : List MelangeMessage) :
    Sync.Erases (publicPass env.recording r.recording «from» fromUser since out)
      (publicPass env r «from» fromUser since out) :=
  erases_bind _ _ _ _ (erases_step [] _)
    (fun s => fetchSubscribed_erases env r «from» since s out)

theorem fetchAlerted_erases {σ : Type} (env : SyncEnv σ) («from» : Identity)
    (l : List models.Alert) :
    ∀ out, Sync.Erases (fetchAlerted env.recording «from» l out)
      (fetchAlerted env «from» l out) := by
  induction l with
  | nil => intro out; exact erases_pure _
  | cons v rest ih =>
    intro out
    exact erases_bind _ _ _ _ (erases_step [] _) (fun msg =>
      erases_bind _ _ _ _ (erases_call _) (fun item => ih _))

theorem privatePass_erases {σ : Type} (env : SyncEnv σ) («from» : Identity) (since : Int)
    (out : List MelangeMessage) :
    Sync.Erases (privatePass env.recording «from» since out)
      (privatePass env «from» since out) :=
  erases_bind _ _ _ _ (erases_step [_] _) (fun ale => fetchAlerted_erases env «from» ale out)

theorem fetchOwn_erases {σ : Type} (env : SyncEnv σ) («from» : Identity)
    (l : List models.Message) :
    ∀ out, Sync.Erases (fetchOwn env.recording «from» l out) (fetchOwn env «from» l out) := by
  induction l with
  | nil => intro out; exact erases_pure _
  | cons v rest ih =>
    intro out
    exact erases_bind _ _ _ _ (erases_step [] _) (fun msg =>
      erases_bind _ _ _ _ (erases_call _) (fun item => ih _))

theorem selfPass_erases {σ : Type} (env : SyncEnv σ) («from» : Identity) (since : Int)
    (out : List MelangeMessage) :
    Sync.Erases (selfPass env.recording «from» since out) (selfPass env «from» since out) :=
  erases_bind _ _ _ _ (erases_step [_] _) (fun msg => fetchOwn_erases env «from» msg out)

/-- The record changes nothing in what `Messages` returns. -/
theorem Messages_recording {σ : Type} (env : SyncEnv σ) (r : RoutingRouter σ)
    («from» : Identity) (fromUser : models.User) («public» «private» self : Bool)
    (since : Int) (wr : Run (σ × List CursorUse)) (w : Run σ)
    (h1 : wr.world.1 = w.world) (h2 : wr.failed = w.failed) :
    (Messages env.recording r.recording «from» fromUser «public» «private» self since wr).1
      = (Messages env r «from» fromUser «public» «private» self since w).1 := by
  obtain ⟨a1, a2, a3⟩ := erases_guarded «public» _ _ []
    (publicPass_erases env r «from» fromUser since []) wr w h1 h2
  rcases hp : (if «public» = true then
      publicPass env.recording r.recording «from» fromUser since []
      else Sync.pure []) wr with ⟨res1, wr1⟩
  rcases hq : (if «public» = true then publicPass env r «from» fromUser since []
      else Sync.pure []) w with ⟨res1n, w1⟩
  rw [hp, hq] at a1 a2 a3
  simp only at a1 a2 a3
  subst a1
  cases res1 with
  | error e => simp only [Messages, hp, hq]
  | ok out1 =>
    obtain ⟨b1, b2, b3⟩ := erases_guarded «private» _ _ out1
      (privatePass_erases env «from» since out1) wr1 w1 a2 a3
    rcases hp2 : (if «private» = true then privatePass env.recording «from» since out1
        else Sync.pure out1) wr1 with ⟨res2, wr2⟩
    rcases hq2 : (if «private» = true then privatePass env «from» since out1
        else Sync.pure out1) w1 with ⟨res2n, w2⟩
    rw [hp2, hq2] at b1 b2 b3
    simp only at b1 b2 b3
    subst b1
    cases res2 with
    | error e => simp only [Messages, hp, hq, hp2, hq2]
    | ok out2 =>
      obtain ⟨c1, c2, c3⟩ := erases_guarded self _ _ out2
        (selfPass_erases env «from» since out2) wr2 w2 b2 b3
      rcases hp3 : (if self = true then selfPass env.recording «from» since out2
          else Sync.pure out2) wr2 with ⟨res3, wr3⟩
      rcases hq3 : (if self = true then selfPass env «from» since out2
          else Sync.pure out2) w2 with ⟨res3n, w3⟩
      rw [hp3, hq3] at c1 c2 c3
      simp only at c1 c2 c3
      subst c1
      cases res3 with
      | error e => simp only [Messages, hp, hq, hp2, hq2, hp3, hq3]
      | ok out3 => simp only [Messages, hp, hq, hp2, hq2, hp3, hq3]

/-- Every use of the cursor recorded during a run of `Messages` agrees with the
cursor of the call. -/
theorem Messages_keeps {σ : Type} (env : SyncEnv σ) (r : RoutingRouter σ)
    («from» : Identity) (fromUser : models.User) («public» «private» self : Bool)
    (since : Int) (w : Run (σ × List CursorUse))
    (hw : ∀ ev ∈ w.world.2, CursorUse.Agrees since ev) :
    ∀ ev ∈ (Messages env.recording r.recording «from» fromUser «public» «private» self
      since w).2.world.2, CursorUse.Agrees since ev := by
  have h1 := keeps_guarded _ «public»
    (publicPass env.recording r.recording «from» fromUser since []) []
    (publicPass_keeps env r «from» fromUser since []) w hw
  rcases hp : (if «public» = true then
      publicPass env.recording r.recording «from» fromUser since []
      else Sync.pure []) w with ⟨r1, w1⟩
  rw [hp] at h1
  cases r1 with
  | error e => simpa only [Messages, hp] using h1
  | ok out1 =>
    have h2 := keeps_guarded _ «private» (privatePass env.recording «from» since out1) out1
      (privatePass_keeps env «from» since out1) w1 h1
    rcases hq : (if «private» = true then privatePass env.recording «from» since out1
        else Sync.pure out1) w1 with ⟨r2, w2⟩
    rw [hq] at h2
    cases r2 with
    | error e => simpa only [Messages, hp, hq] using h2
    | ok out2 =>
      have h3 := keeps_guarded _ self (selfPass env.recording «from» since out2) out2
        (selfPass_keeps env «from» since out2) w2 h2
      rcases hs : (if self = true then selfPass env.recording «from» since out2
          else Sync.pure out2) w2 with ⟨r3, w3⟩
      rw [hs] at h3
      cases r3 with
      | error e => simpa only [Messages, hp, hq, hs] using h3
      | ok out3 => simpa only [Messages, hp, hq, hs] using h3

/-- The conversion `uint64(since)` of an `int64`: the value itself when it is not
negative, `2^64 + since` when it is. -/
theorem uint64_of_int64 (since : Int) (hlo : -2 ^ 63 ≤ since) (hhi : since < 2 ^ 63) :
    (0 ≤ since → (uint64 since : Int) = since) ∧
    (since < 0 → (uint64 since : Int) = 2 ^ 64 + since ∧ (2 : Int) ^ 63 ≤ (uint64 since : Int)) := by
  unfold uint64
  norm_num at hlo hhi ⊢
  constructor
  · intro h
    omega
  · intro h
    omega

/-- C14: in a run of `Messages` with the `int64` cursor `since`, every list request
handed to `message.SendMessageAndReceive` carries the cursor `uint64(since)`, and
every select on alerts and on messages carries `since` itself; `uint64(since)` is
`since` when `since ≥ 0` and `2^64 + since`, at least `2^63`, when `since < 0`, so for a
negative cursor the public pass asks for another threshold than the two other
passes filter on. Keeping the record changes nothing in what `Messages` returns. -/
theorem Messages_cursor {σ : Type} (env : SyncEnv σ) (r : RoutingRouter σ)
    («from» : Identity) (fromUser : models.User) («public» «private» self : Bool)
    (since : Int) (w : Run (σ × List CursorUse))
    (hlo : -2 ^ 63 ≤ since) (hhi : since < 2 ^ 63) (hw : w.world.2 = []) :
    (∀ ev ∈ (Messages env.recording r.recording «from» fromUser «public» «private» self
        since w).2.world.2,
      match ev with
      | .ListRequest req => ∃ a b, req = .CreateTransferMessageList (uint64 since) a b
      | .SelectAlerts _ t => t = since
      | .SelectMessages _ t => t = since) ∧
    (0 ≤ since → (uint64 since : Int) = since) ∧
    (since < 0 →
      (uint64 since : Int) = 2 ^ 64 + since ∧ (2 : Int) ^ 63 ≤ (uint64 since : Int) ∧
      (uint64 since : Int) ≠ since) ∧
    (Messages env.recording r.recording «from» fromUser «public» «private» self since w).1
      = (Messages env r «from» fromUser «public» «private» self since
          ⟨w.world.1, w.failed⟩).1 := by
  have hk := Messages_keeps env r «from» fromUser «public» «private» self since w
    (by rw [hw]; simp)
  have hu := uint64_of_int64 since hlo hhi
  refine ⟨?_, hu.1, ?_, ?_⟩
  · intro ev hev
    have := hk ev hev
    cases ev <;> simpa [CursorUse.Agrees] using this
  · intro hneg
    refine ⟨(hu.2 hneg).1, (hu.2 hneg).2, ?_⟩
    have := (hu.2 hneg).2
    have h63 : (0 : Int) < 2 ^ 63 := by norm_num
    omega
  · exact Messages_recording env r «from» fromUser «public» «private» self since w
      ⟨w.world.1, w.failed⟩ rfl rfl

/-- The witness of C14: the example run with the cursor -5. -/
theorem Messages_cursor_witness :
    (∀ ev ∈ (Messages (demoSyncEnv demoAlerts).recording demoRouter.recording demoIdentity
        demoUser true true true (-5) ⟨(0, []), []⟩).2.world.2,
      match ev with
      | .ListRequest req => ∃ a b, req = .CreateTransferMessageList (uint64 (-5)) a b
      | .SelectAlerts _ t => t = -5
      | .SelectMessages _ t => t = -5) ∧
    ((0 : Int) ≤ -5 → (uint64 (-5) : Int) = -5) ∧
    ((-5 : Int) < 0 →
      (uint64 (-5) : Int) = 2 ^ 64 + -5 ∧ (2 : Int) ^ 63 ≤ (uint64 (-5) : Int) ∧
      (uint64 (-5) : Int) ≠ -5) ∧
    (Messages (demoSyncEnv demoAlerts).recording demoRouter.recording demoIdentity demoUser
        true true true (-5) ⟨(0, []), []⟩).1
      = (Messages (demoSyncEnv demoAlerts) demoRouter demoIdentity demoUser true true true (-5)
          ⟨((0, []) : Nat × List CursorUse).1, []⟩).1 :=
  Messages_cursor (demoSyncEnv demoAlerts) demoRouter demoIdentity demoUser true true true
    (-5) ⟨(0, []), []⟩ (by decide) (by decide) rfl

/-- The conversion of the cursor -5. -/
theorem uint64_example : uint64 (-5) = 18446744073709551611 := by rfl

/-- The use of the cursor recorded in the public pass of the example run with the
cursor -5: the one subscribed server is asked for the messages since `uint64(-5)`. -/
theorem Messages_cursor_public_example :
    (Messages (demoSyncEnv demoAlerts).recording demoRouter.recording demoIdentity demoUser
        true false false (-5) ⟨(0, []), []⟩).2.world.2
      = [.ListRequest (.CreateTransferMessageList (uint64 (-5))
            (demoAddress "alice") (demoAddress "bob@example.com"))] := by
  rfl

/-- The uses of the cursor recorded in the private and the self pass of the example
run with the cursor -5: the database is asked for the alerts and for the messages
newer than -5. -/
theorem Messages_cursor_private_self_example :
    (Messages (demoSyncEnv demoAlerts).recording demoRouter.recording demoIdentity demoUser
        false true true (-5) ⟨(0, []), []⟩).2.world.2
      = [.SelectAlerts "alice" (-5), .SelectMessages "alice" (-5)] := by
  decide

/-- In the example run with the cursor -5 the private pass, which filters on the
signed cursor, gets both alerted messages, the one of timestamp 7 included. -/
theorem Messages_private_negative_example :
    (Messages (demoSyncEnv demoAlerts) demoRouter demoIdentity demoUser
        false true false (-5) ⟨0, []⟩).1.1.map (fun x => x.Timestamp) = [7, 50] := by
  decide

end Melange
